import Mathlib

/-!
Verification development for the `cp-multilingual-qa-lab` repository.

Shallow embedding of the deterministic core of the repository:
  * `parrot_ai/llm_evaluation.py`: the score-normalization pipeline run by
    `EvaluationEngine.evaluate` after the judge call returns
    (`clamp_scale_scores`, `apply_purity_penalty`, `clamp_all_overalls`,
    `enforce_knockouts`, `adjust_boldness`), plus `basic_language_metrics`,
    `is_arabic_char` and `load_eval_questions`.
  * `cp_eval.py`: `aggregate_scores`, `ensure_csv_structure`,
    `update_comparison_csv`, `CSV_ROWS_ORDER`, and the strict-100 question
    guard of `main`.

Modelling conventions:
  * Python ints are `Int`; Python floats appearing here (the purity
    percentages and aggregated means) are modelled as exact rationals `ℚ`.
    Python's `round` (round-half-to-even) is `pyRound` / `pyRound2`.
  * Text is `List Char` (a Python `str` is a sequence of code points).
    `str.isspace` is modelled in full (`pyIsSpace`); `str.isalpha` and
    `str.lower` are modelled on the scripts this repository processes
    (ASCII plus the core Arabic letters); other code points are
    conservatively classified as non-alphabetic / case-invariant.
  * The judge's raw score is produced by the pydantic model
    `EvaluationResult`, so every section key is always present; a raw field
    value that is not an `int` (e.g. `null`) is modelled as `none`.
-/

/-- Python's `round` on a real value: round half to even (banker's rounding),
returning an integer.  Used with exact rational arguments. -/
def pyRound (q : ℚ) : ℤ :=
  let f := q.floor
  let r := q - f
  if r < 1/2 then f
  else if 1/2 < r then f + 1
  else if f % 2 = 0 then f else f + 1

/-- Python's `round(x, 2)`: round half to even at two decimal places. -/
def pyRound2 (q : ℚ) : ℚ :=
  (pyRound (q * 100) : ℚ) / 100

/-- Python `str.isspace`, per code point (the full CPython whitespace set). -/
def pyIsSpace (c : Char) : Bool :=
  let n := c.toNat
  (0x9 ≤ n && n ≤ 0xd) || (0x1c ≤ n && n ≤ 0x20) || n == 0x85 || n == 0xa0 ||
  n == 0x1680 || (0x2000 ≤ n && n ≤ 0x200a) || n == 0x2028 || n == 0x2029 ||
  n == 0x202f || n == 0x205f || n == 0x3000

/-- Python `str.isalpha`, per code point, restricted to the scripts this
repository processes: ASCII letters and the core Arabic letter ranges
(U+0620–U+064A and U+0671–U+06D3).  Other code points are conservatively
non-alphabetic. -/
def pyIsAlpha (c : Char) : Bool :=
  let n := c.toNat
  (0x41 ≤ n && n ≤ 0x5a) || (0x61 ≤ n && n ≤ 0x7a) ||
  (0x620 ≤ n && n ≤ 0x64a) || (0x671 ≤ n && n ≤ 0x6d3)

/-- Python `str.lower`, per code point: ASCII case folding; all other code
points (including the caseless Arabic script) are left unchanged. -/
def pyLowerChar (c : Char) : Char :=
  if 'A' ≤ c && c ≤ 'Z' then Char.ofNat (c.toNat + 32) else c

/-- Python `s.strip()` for a string modelled as a character list. -/
def pyStrip (s : List Char) : List Char :=
  ((s.dropWhile pyIsSpace).reverse.dropWhile pyIsSpace).reverse

/-- Characters of a string literal, for writing embedded Python string
constants. -/
def lc (s : String) : List Char := s.data

/-- Prefix test: `startsWith p t` means `p` is a prefix of `t`. -/
def startsWith : List Char → List Char → Bool
  | [], _ => true
  | _ :: _, [] => false
  | p :: ps, t :: ts => p == t && startsWith ps ts

/-- Python's substring test `p in t`. -/
def containsSub (p : List Char) : List Char → Bool
  | [] => p.isEmpty
  | c :: ts => startsWith p (c :: ts) || containsSub p ts

/-- Substring test on Lean strings (used to state facts about the
`Penalty_Reason` strings the pipeline builds). -/
def strContainsSub (needle hay : String) : Bool :=
  containsSub needle.data hay.data

/-- Membership in `ARABIC_BLOCKS`: `is_arabic_char` from
`parrot_ai/llm_evaluation.py`. -/
def is_arabic_char (c : Char) : Bool :=
  let n := c.toNat
  (0x0600 ≤ n && n ≤ 0x06FF) || (0x0750 ≤ n && n ≤ 0x077F) ||
  (0x08A0 ≤ n && n ≤ 0x08FF) || (0x0870 ≤ n && n ≤ 0x089F) ||
  (0xFB50 ≤ n && n ≤ 0xFDFF) || (0xFE70 ≤ n && n ≤ 0xFEFF) ||
  (0x1EE00 ≤ n && n ≤ 0x1EEFF)

/-- Result of `basic_language_metrics`. -/
structure LangMetrics where
  arabic_char_pct : ℚ
  non_arabic_char_pct : ℚ
  total_letters : Nat
  deriving DecidableEq

/-- Embedding of `basic_language_metrics` from `parrot_ai/llm_evaluation.py`:
percentage of Arabic letters among all letters of the text. -/
def basic_language_metrics (text : List Char) : LangMetrics :=
  let letters := text.filter pyIsAlpha
  if letters.isEmpty then ⟨0, 0, 0⟩
  else
    let arabic := (letters.filter is_arabic_char).length
    let pct : ℚ := (arabic : ℚ) / (letters.length : ℚ) * 100
    ⟨pyRound2 pct, pyRound2 (100 - pct), letters.length⟩

/-! Section: The rubric score data model

Raw scores come from the pydantic model `EvaluationResult`
(`AdherenceModel`, `KindnessGentlenessModel`, `InterfaithSensitivityModel`,
`ArabicAccuracyDetailed`): every key is always present; a field value is
`none` when the dict holds a non-integer there (the spec's
"non-integer or missing values"). -/

/-- Raw `Adherence` section. -/
structure AdherenceRaw where
  Core : Option ℤ
  Secondary : Option ℤ
  Tertiary_Handling : Option ℤ
  Biblical_Basis : Option ℤ
  Consistency : Option ℤ
  Overall : Option ℤ
  deriving DecidableEq

/-- Raw `Kindness_and_Gentleness` section. -/
structure KindnessRaw where
  Core_Clarity_with_Kindness : Option ℤ
  Pastoral_Sensitivity : Option ℤ
  Secondary_Fairness : Option ℤ
  Tertiary_Neutrality : Option ℤ
  Tone : Option ℤ
  Overall : Option ℤ
  deriving DecidableEq

/-- Raw `Interfaith_Sensitivity` section. -/
structure InterfaithRaw where
  Respect_and_Handling_Objections : Option ℤ
  Objection_Acknowledgement : Option ℤ
  Evangelism : Option ℤ
  Gospel_Boldness : Option ℤ
  Overall : Option ℤ
  deriving DecidableEq

/-- Raw `Arabic_Accuracy` section.  `Grammar` stands for the source key
`Grammar_and_Syntax` (shortened name). -/
structure ArabicRaw where
  Grammar : Option ℤ
  Theological_Nuance : Option ℤ
  Contextual_Clarity : Option ℤ
  Consistency_of_Terms : Option ℤ
  Arabic_Purity : Option ℤ
  Penalty_Reason : Option String
  Overall : Option ℤ
  deriving DecidableEq

/-- A raw judge score (`EvaluationResult` as a dict). -/
structure RawScore where
  Adherence : AdherenceRaw
  Kindness_and_Gentleness : KindnessRaw
  Interfaith_Sensitivity : InterfaithRaw
  Arabic_Accuracy : ArabicRaw
  deriving DecidableEq

/-- The `Adherence` section after `clamp_scale_scores` (all scale fields are
ints from then on). -/
structure Adherence where
  Core : ℤ
  Secondary : ℤ
  Tertiary_Handling : ℤ
  Biblical_Basis : ℤ
  Consistency : ℤ
  Overall : ℤ
  deriving DecidableEq

/-- The `Kindness_and_Gentleness` section after `clamp_scale_scores`. -/
structure Kindness where
  Core_Clarity_with_Kindness : ℤ
  Pastoral_Sensitivity : ℤ
  Secondary_Fairness : ℤ
  Tertiary_Neutrality : ℤ
  Tone : ℤ
  Overall : ℤ
  deriving DecidableEq

/-- The `Interfaith_Sensitivity` section after `clamp_scale_scores`. -/
structure Interfaith where
  Respect_and_Handling_Objections : ℤ
  Objection_Acknowledgement : ℤ
  Evangelism : ℤ
  Gospel_Boldness : ℤ
  Overall : ℤ
  deriving DecidableEq

/-- The `Arabic_Accuracy` section after `clamp_scale_scores`.
`Grammar` stands for the source key `Grammar_and_Syntax`.
`Heuristic_Arabic_Purity_Pct` is `none` until `apply_purity_penalty`
inserts the heuristic percentage (a float, modelled as `ℚ`). -/
structure ArabicAccuracy where
  Grammar : ℤ
  Theological_Nuance : ℤ
  Contextual_Clarity : ℤ
  Consistency_of_Terms : ℤ
  Arabic_Purity : ℤ
  Penalty_Reason : Option String
  Overall : ℤ
  Heuristic_Arabic_Purity_Pct : Option ℚ
  deriving DecidableEq

/-- A rubric score dict as it flows through the normalization pipeline. -/
structure Score where
  Adherence : Adherence
  Kindness_and_Gentleness : Kindness
  Interfaith_Sensitivity : Interfaith
  Arabic_Accuracy : ArabicAccuracy
  deriving DecidableEq

/-! Section: The normalization pipeline (`parrot_ai/llm_evaluation.py`) -/

/-- The `clip` helper inside `clamp_scale_scores`:
`max(1, min(5, int(v))) if isinstance(v, int) else 1`. -/
def clip (v : Option ℤ) : ℤ :=
  match v with
  | some n => max 1 (min 5 n)
  | none => 1

/-- Embedding of `clamp_scale_scores`: clip every scale field into `[1,5]`, skipping
`Penalty_Reason` (and `Heuristic_Arabic_Purity_Pct`, which is not present
on a raw score). -/
def clamp_scale_scores (d : RawScore) : Score where
  Adherence :=
    { Core := clip d.Adherence.Core
      Secondary := clip d.Adherence.Secondary
      Tertiary_Handling := clip d.Adherence.Tertiary_Handling
      Biblical_Basis := clip d.Adherence.Biblical_Basis
      Consistency := clip d.Adherence.Consistency
      Overall := clip d.Adherence.Overall }
  Kindness_and_Gentleness :=
    { Core_Clarity_with_Kindness := clip d.Kindness_and_Gentleness.Core_Clarity_with_Kindness
      Pastoral_Sensitivity := clip d.Kindness_and_Gentleness.Pastoral_Sensitivity
      Secondary_Fairness := clip d.Kindness_and_Gentleness.Secondary_Fairness
      Tertiary_Neutrality := clip d.Kindness_and_Gentleness.Tertiary_Neutrality
      Tone := clip d.Kindness_and_Gentleness.Tone
      Overall := clip d.Kindness_and_Gentleness.Overall }
  Interfaith_Sensitivity :=
    { Respect_and_Handling_Objections := clip d.Interfaith_Sensitivity.Respect_and_Handling_Objections
      Objection_Acknowledgement := clip d.Interfaith_Sensitivity.Objection_Acknowledgement
      Evangelism := clip d.Interfaith_Sensitivity.Evangelism
      Gospel_Boldness := clip d.Interfaith_Sensitivity.Gospel_Boldness
      Overall := clip d.Interfaith_Sensitivity.Overall }
  Arabic_Accuracy :=
    { Grammar := clip d.Arabic_Accuracy.Grammar
      Theological_Nuance := clip d.Arabic_Accuracy.Theological_Nuance
      Contextual_Clarity := clip d.Arabic_Accuracy.Contextual_Clarity
      Consistency_of_Terms := clip d.Arabic_Accuracy.Consistency_of_Terms
      Arabic_Purity := clip d.Arabic_Accuracy.Arabic_Purity
      Penalty_Reason := d.Arabic_Accuracy.Penalty_Reason
      Overall := clip d.Arabic_Accuracy.Overall
      Heuristic_Arabic_Purity_Pct := none }

/-- The reason-appending idiom used throughout the penalty code:
`reason = section.get('Penalty_Reason') or ''; if reason: reason += ' | '`,
then concatenate the new message. -/
def appendReason (old : Option String) (msg : String) : String :=
  match old with
  | none => msg
  | some r => if r = "" then msg else r ++ " | " ++ msg

/-- The purity-cap ladder in `apply_purity_penalty`:
`>=98 -> 5, >=90 -> 4, >=75 -> 3, >=60 -> 2, else 1`. -/
def purityCap (pct : ℚ) : ℤ :=
  if pct ≥ 98 then 5
  else if pct ≥ 90 then 4
  else if pct ≥ 75 then 3
  else if pct ≥ 60 then 2
  else 1

/-- Renders the heuristic percentage as Python's `repr` of the rounded
float would, for the values produced by `pyRound2` (two decimals at most):
`0 ↦ "0.0"`, `50 ↦ "50.0"`, `667/10 ↦ "66.7"`, `6667/100 ↦ "66.67"`. -/
def fmtPct (q : ℚ) : String :=
  let m := (q * 100).num
  let ip := m / 100
  let fp := (m % 100).toNat
  if fp = 0 then toString ip ++ ".0"
  else if fp % 10 = 0 then toString ip ++ "." ++ toString (fp / 10)
  else if fp < 10 then toString ip ++ ".0" ++ toString fp
  else toString ip ++ "." ++ toString fp

/-- Embedding of `apply_purity_penalty`: cap `Arabic_Purity` by the heuristic ladder and,
for a low cap, also cap `Grammar_and_Syntax` at 3 and the section `Overall`
at 3; always record the heuristic percentage. -/
def apply_purity_penalty (answer : List Char) (d : Score) : Score :=
  let pct := (basic_language_metrics answer).arabic_char_pct
  let cap := purityCap pct
  let a0 := d.Arabic_Accuracy
  let a1 :=
    if a0.Arabic_Purity > cap then
      { a0 with
        Arabic_Purity := cap
        Penalty_Reason := some (appendReason a0.Penalty_Reason
          ("Capped purity (heuristic " ++ fmtPct pct ++ "%)")) }
    else a0
  let a2 :=
    if cap ≤ 2 then
      let a1' :=
        if a1.Grammar > 3 then
          { a1 with
            Grammar := 3
            Penalty_Reason := some (appendReason a1.Penalty_Reason
              "Grammar capped due to low purity") }
        else a1
      if a1'.Overall > 3 then { a1' with Overall := min 3 a1'.Overall } else a1'
    else a1
  { d with Arabic_Accuracy := { a2 with Heuristic_Arabic_Purity_Pct := some pct } }

/-- Embedding of `clamp_overall`: clamp a section's `Overall` into `±1` of the rounded
mean of its component fields (all components are ints after
`clamp_scale_scores`, so the guard only fires on an empty key list). -/
def clamp_overall (overall : ℤ) (vals : List ℤ) : ℤ :=
  if vals = [] then overall
  else
    let target := pyRound ((vals.sum : ℚ) / (vals.length : ℚ))
    min (max overall (target - 1)) (target + 1)

/-- Component keys of `Adherence` used by `clamp_all_overalls`. -/
def adherenceVals (a : Adherence) : List ℤ :=
  [a.Core, a.Secondary, a.Tertiary_Handling, a.Biblical_Basis, a.Consistency]

/-- Component keys of `Kindness_and_Gentleness` used by `clamp_all_overalls`. -/
def kindnessVals (k : Kindness) : List ℤ :=
  [k.Core_Clarity_with_Kindness, k.Pastoral_Sensitivity, k.Secondary_Fairness,
   k.Tertiary_Neutrality, k.Tone]

/-- Component keys of `Interfaith_Sensitivity` used by `clamp_all_overalls`. -/
def interfaithVals (i : Interfaith) : List ℤ :=
  [i.Respect_and_Handling_Objections, i.Objection_Acknowledgement,
   i.Evangelism, i.Gospel_Boldness]

/-- Component keys of `Arabic_Accuracy` used by `clamp_all_overalls`. -/
def arabicVals (a : ArabicAccuracy) : List ℤ :=
  [a.Grammar, a.Theological_Nuance, a.Contextual_Clarity,
   a.Consistency_of_Terms, a.Arabic_Purity]

/-- Embedding of `clamp_all_overalls`: apply `clamp_overall` to every section. -/
def clamp_all_overalls (d : Score) : Score where
  Adherence :=
    { d.Adherence with
      Overall := clamp_overall d.Adherence.Overall (adherenceVals d.Adherence) }
  Kindness_and_Gentleness :=
    { d.Kindness_and_Gentleness with
      Overall := clamp_overall d.Kindness_and_Gentleness.Overall
        (kindnessVals d.Kindness_and_Gentleness) }
  Interfaith_Sensitivity :=
    { d.Interfaith_Sensitivity with
      Overall := clamp_overall d.Interfaith_Sensitivity.Overall
        (interfaithVals d.Interfaith_Sensitivity) }
  Arabic_Accuracy :=
    { d.Arabic_Accuracy with
      Overall := clamp_overall d.Arabic_Accuracy.Overall
        (arabicVals d.Arabic_Accuracy) }

/-- The all-ones score written by the empty-answer knockout; every scale
field of every section becomes 1, `Penalty_Reason` becomes the literal
`"Empty answer"`, and `Heuristic_Arabic_Purity_Pct` (not in the forced
field lists) is kept. -/
def emptyKnockout (d : Score) : Score where
  Adherence := ⟨1, 1, 1, 1, 1, 1⟩
  Kindness_and_Gentleness := ⟨1, 1, 1, 1, 1, 1⟩
  Interfaith_Sensitivity := ⟨1, 1, 1, 1, 1⟩
  Arabic_Accuracy :=
    { Grammar := 1, Theological_Nuance := 1, Contextual_Clarity := 1
      Consistency_of_Terms := 1, Arabic_Purity := 1
      Penalty_Reason := some "Empty answer", Overall := 1
      Heuristic_Arabic_Purity_Pct := d.Arabic_Accuracy.Heuristic_Arabic_Purity_Pct }

/-- Embedding of `enforce_knockouts`: empty-answer knockout, the `Core <= 2` Adherence
ceiling, the `Respect <= 1` Interfaith ceiling, and the low-purity grammar
knockout. -/
def enforce_knockouts (answer : List Char) (d : Score) : Score :=
  if answer.all pyIsSpace then emptyKnockout d
  else
    let ad0 := d.Adherence
    let ad1 := if ad0.Core ≤ 2 ∧ ad0.Overall > 3 then { ad0 with Overall := 3 } else ad0
    let it0 := d.Interfaith_Sensitivity
    let it1 :=
      if it0.Respect_and_Handling_Objections ≤ 1 ∧ it0.Overall > 2 then
        { it0 with Overall := 2 }
      else it0
    let ar0 := d.Arabic_Accuracy
    let ar1 :=
      if ar0.Arabic_Purity ≤ 2 ∧ ar0.Grammar > 3 then
        { ar0 with
          Grammar := 3
          Penalty_Reason := some (appendReason ar0.Penalty_Reason
            "Grammar capped due to low purity (knockout)") }
      else ar0
    { d with Adherence := ad1, Interfaith_Sensitivity := it1, Arabic_Accuracy := ar1 }

/-- Embedding of `RELATIVISM_PATTERNS` from `parrot_ai/llm_evaluation.py`. -/
def RELATIVISM_PATTERNS : List (List Char) :=
  [lc "كل الأديان", lc "جميع الأديان", lc "كل الديانات",
   lc "لا أستطيع تقديم رأي شخصي", lc "لا أستطيع إعطاء رأي شخصي",
   lc "كنموذج ذكاء اصطناعي", lc "كذكاء اصطناعي", lc "كنموذج لغوي",
   lc "أنا نموذج", lc "I cannot provide a personal opinion",
   lc "all religions", lc "true for them", lc "equally true"]

/-- Embedding of `BOLD_KEYWORDS` from `parrot_ai/llm_evaluation.py`. -/
def BOLD_KEYWORDS : List (List Char) :=
  [lc "يسوع", lc "المسيح", lc "الصليب", lc "الخلاص", lc "القيامة",
   lc "ابن الله", lc "التجسد", lc "المخلص"]

/-- The test `any(pat.lower() in answer.lower() for pat in RELATIVISM_PATTERNS)`. -/
def hasRelativism (answer : List Char) : Bool :=
  RELATIVISM_PATTERNS.any fun pat =>
    containsSub (pat.map pyLowerChar) (answer.map pyLowerChar)

/-- The test `any(kw in answer for kw in BOLD_KEYWORDS)` (case-sensitive). -/
def hasBold (answer : List Char) : Bool :=
  BOLD_KEYWORDS.any fun kw => containsSub kw answer

/-- Embedding of `adjust_boldness`: penalize relativistic hedging without bold
Christ-centered content, reward bold content, and push to 5 on an explicit
invitation.  The source's ensure-the-field-is-an-int branch is a no-op
here because every field is an int after `clamp_scale_scores`. -/
def adjust_boldness (answer : List Char) (d : Score) : Score :=
  let it0 := d.Interfaith_Sensitivity
  let hasRel := hasRelativism answer
  let hasB := hasBold answer
  let it1 :=
    if hasRel ∧ ¬ hasB then
      let ita := { it0 with Gospel_Boldness := min it0.Gospel_Boldness 2 }
      if ita.Evangelism > 3 then { ita with Evangelism := 3 } else ita
    else it0
  let it2 :=
    if hasB ∧ ¬ hasRel ∧ it1.Gospel_Boldness < 4 then
      { it1 with Gospel_Boldness := 4 }
    else it1
  let it3 :=
    if hasB ∧ (containsSub (lc "توب") answer ∨ containsSub (lc "تعال") answer ∨
        containsSub (lc "آمن") answer) ∧ ¬ hasRel then
      { it2 with Gospel_Boldness := max it2.Gospel_Boldness 5 }
    else it2
  { d with Interfaith_Sensitivity := it3 }

/-- The deterministic normalization pipeline of `EvaluationEngine.evaluate`
(everything after the judge call parses into `EvaluationResult`):
`clamp_scale_scores`, `apply_purity_penalty`, `clamp_all_overalls`,
`enforce_knockouts`, `adjust_boldness`, `clamp_all_overalls`. -/
def evaluate_normalize (answer : List Char) (raw : RawScore) : Score :=
  clamp_all_overalls
    (adjust_boldness answer
      (enforce_knockouts answer
        (clamp_all_overalls
          (apply_purity_penalty answer
            (clamp_scale_scores raw)))))

/-! Section: Arithmetic lemmas about `pyRound` and `clamp_overall` -/

/-- Bridging lemma: `Rat.floor` agrees with the `FloorRing` floor on `ℚ`. -/
theorem rat_floor_eq_intFloor (q : ℚ) : q.floor = ⌊q⌋ := by
  rw [Rat.floor_def', Rat.floor_def]

/-- Unfolding of `pyRound` through the `FloorRing` floor. -/
theorem pyRound_def (q : ℚ) : pyRound q =
    if q - (⌊q⌋ : ℚ) < 1/2 then ⌊q⌋
    else if 1/2 < q - (⌊q⌋ : ℚ) then ⌊q⌋ + 1
    else if ⌊q⌋ % 2 = 0 then ⌊q⌋ else ⌊q⌋ + 1 := by
  unfold pyRound
  rw [rat_floor_eq_intFloor]

/-- Lower bound: `pyRound` never rounds below the floor. -/
theorem floor_le_pyRound (q : ℚ) : ⌊q⌋ ≤ pyRound q := by
  rw [pyRound_def]
  split_ifs <;> omega

/-- Upper bound: `pyRound` never rounds above the floor plus one. -/
theorem pyRound_le_floor_add_one (q : ℚ) : pyRound q ≤ ⌊q⌋ + 1 := by
  rw [pyRound_def]
  split_ifs <;> omega

/-- Anything strictly below `n + 1/2` rounds to at most `n`. -/
theorem pyRound_le_of_lt_half (q : ℚ) (n : ℤ) (h : q < (n : ℚ) + 1/2) :
    pyRound q ≤ n := by
  have hfl : (⌊q⌋ : ℚ) ≤ q := Int.floor_le q
  have hfn : ⌊q⌋ ≤ n := by
    have : (⌊q⌋ : ℚ) < (n : ℚ) + 1 := lt_of_le_of_lt hfl (h.trans_le (by norm_num))
    exact_mod_cast Int.lt_add_one_iff.mp (by exact_mod_cast this)
  rw [pyRound_def]
  split_ifs with h1 h2 h3
  · exact hfn
  · -- here `1/2 < q - ⌊q⌋`, so `⌊q⌋ + 1/2 < q < n + 1/2`, hence `⌊q⌋ < n`
    have : (⌊q⌋ : ℚ) + 1/2 < (n : ℚ) + 1/2 := by
      have := lt_of_lt_of_le h2 (le_refl (q - (⌊q⌋ : ℚ)))
      linarith
    have : ⌊q⌋ < n := by exact_mod_cast (by linarith : (⌊q⌋ : ℚ) < (n : ℚ))
    omega
  · exact hfn
  · -- tie case `q - ⌊q⌋ = 1/2`: `q = ⌊q⌋ + 1/2 < n + 1/2`
    have he : q - (⌊q⌋ : ℚ) = 1/2 := le_antisymm (not_lt.mp h2) (not_lt.mp h1)
    have : (⌊q⌋ : ℚ) < (n : ℚ) := by linarith
    have : ⌊q⌋ < n := by exact_mod_cast this
    omega

/-- Integer lower bound through `pyRound`. -/
theorem le_pyRound_of_le (q : ℚ) (n : ℤ) (h : (n : ℚ) ≤ q) : n ≤ pyRound q := by
  have : n ≤ ⌊q⌋ := Int.le_floor.mpr h
  exact this.trans (floor_le_pyRound q)

/-- Integer upper bound through `pyRound`. -/
theorem pyRound_le_of_le (q : ℚ) (n : ℤ) (h : q ≤ (n : ℚ)) : pyRound q ≤ n :=
  pyRound_le_of_lt_half q n (lt_of_le_of_lt h (by norm_num))

/-- Sum of a list bounded above elementwise. -/
theorem list_sum_le (l : List ℤ) (b : ℤ) (h : ∀ x ∈ l, x ≤ b) :
    l.sum ≤ b * l.length := by
  induction l with
  | nil => simp
  | cons x xs ih =>
    have hx : x ≤ b := h x (List.mem_cons_self x xs)
    have hxs := ih fun y hy => h y (List.mem_cons_of_mem x hy)
    simp only [List.sum_cons, List.length_cons]
    push_cast
    nlinarith

/-- Sum of a list bounded below elementwise. -/
theorem le_list_sum (l : List ℤ) (b : ℤ) (h : ∀ x ∈ l, b ≤ x) :
    b * l.length ≤ l.sum := by
  induction l with
  | nil => simp
  | cons x xs ih =>
    have hx : b ≤ x := h x (List.mem_cons_self x xs)
    have hxs := ih fun y hy => h y (List.mem_cons_of_mem x hy)
    simp only [List.sum_cons, List.length_cons]
    push_cast
    nlinarith

/-- The rounded mean of a nonempty list of values in `[lo, hi]` lies in
`[lo, hi]`. -/
theorem pyRound_mean_bounds (vals : List ℤ) (lo hi : ℤ)
    (hne : vals ≠ []) (h : ∀ x ∈ vals, lo ≤ x ∧ x ≤ hi) :
    lo ≤ pyRound ((vals.sum : ℚ) / (vals.length : ℚ)) ∧
      pyRound ((vals.sum : ℚ) / (vals.length : ℚ)) ≤ hi := by
  have hlen : 0 < vals.length := List.length_pos.mpr hne
  have hlenQ : (0 : ℚ) < (vals.length : ℚ) := by exact_mod_cast hlen
  have hsum_le : vals.sum ≤ hi * vals.length := list_sum_le vals hi fun x hx => (h x hx).2
  have hle_sum : lo * vals.length ≤ vals.sum := le_list_sum vals lo fun x hx => (h x hx).1
  constructor
  · refine le_pyRound_of_le _ _ ?_
    rw [le_div_iff hlenQ]
    exact_mod_cast hle_sum
  · refine pyRound_le_of_le _ _ ?_
    rw [div_le_iff hlenQ]
    exact_mod_cast hsum_le

/-- Range preservation: `clamp_overall` of an in-range `Overall` over in-range components stays
in `[1, 5]`. -/
theorem clamp_overall_in_range (overall : ℤ) (vals : List ℤ)
    (hO : 1 ≤ overall ∧ overall ≤ 5) (h : ∀ x ∈ vals, 1 ≤ x ∧ x ≤ 5) :
    1 ≤ clamp_overall overall vals ∧ clamp_overall overall vals ≤ 5 := by
  unfold clamp_overall
  split_ifs with hne
  · exact hO
  · have := pyRound_mean_bounds vals 1 5 hne h
    simp only []
    omega

/-- Band property: `clamp_overall` lands within `±1` of the rounded mean when the
component list is nonempty. -/
theorem clamp_overall_band (overall : ℤ) (vals : List ℤ) (hne : vals ≠ []) :
    pyRound ((vals.sum : ℚ) / (vals.length : ℚ)) - 1 ≤ clamp_overall overall vals ∧
      clamp_overall overall vals ≤ pyRound ((vals.sum : ℚ) / (vals.length : ℚ)) + 1 := by
  unfold clamp_overall
  split_ifs
  · exact absurd ‹vals = []› hne
  · simp only []
    omega

/-- Upper-bound preservation through `clamp_overall`: if `Overall` is
already at most `b` and the rounded mean is at most `b + 1`, the clamp
keeps the bound. -/
theorem clamp_overall_le (overall : ℤ) (vals : List ℤ) (b : ℤ)
    (hO : overall ≤ b)
    (ht : pyRound ((vals.sum : ℚ) / (vals.length : ℚ)) ≤ b + 1) :
    clamp_overall overall vals ≤ b := by
  unfold clamp_overall
  split_ifs
  · exact hO
  · simp only []
    omega

/-! Section: The `[1, 5]` range invariant (claim C1) -/

/-- An integer scale value in `[1, 5]`. -/
def inScale (n : ℤ) : Prop := 1 ≤ n ∧ n ≤ 5

/-- All integer fields of the `Adherence` section are in `[1, 5]`. -/
def adherenceInRange (a : Adherence) : Prop :=
  inScale a.Core ∧ inScale a.Secondary ∧ inScale a.Tertiary_Handling ∧
  inScale a.Biblical_Basis ∧ inScale a.Consistency ∧ inScale a.Overall

/-- All integer fields of the `Kindness_and_Gentleness` section are in `[1, 5]`. -/
def kindnessInRange (k : Kindness) : Prop :=
  inScale k.Core_Clarity_with_Kindness ∧ inScale k.Pastoral_Sensitivity ∧
  inScale k.Secondary_Fairness ∧ inScale k.Tertiary_Neutrality ∧
  inScale k.Tone ∧ inScale k.Overall

/-- All integer fields of the `Interfaith_Sensitivity` section are in `[1, 5]`. -/
def interfaithInRange (i : Interfaith) : Prop :=
  inScale i.Respect_and_Handling_Objections ∧ inScale i.Objection_Acknowledgement ∧
  inScale i.Evangelism ∧ inScale i.Gospel_Boldness ∧ inScale i.Overall

/-- All integer fields of the `Arabic_Accuracy` section are in `[1, 5]`. -/
def arabicInRange (a : ArabicAccuracy) : Prop :=
  inScale a.Grammar ∧ inScale a.Theological_Nuance ∧ inScale a.Contextual_Clarity ∧
  inScale a.Consistency_of_Terms ∧ inScale a.Arabic_Purity ∧ inScale a.Overall

/-- Every integer field of every section of a score is in `[1, 5]`. -/
def scoreInRange (s : Score) : Prop :=
  adherenceInRange s.Adherence ∧ kindnessInRange s.Kindness_and_Gentleness ∧
  interfaithInRange s.Interfaith_Sensitivity ∧ arabicInRange s.Arabic_Accuracy

/-- Bounds for `clip`: it always lands in `[1, 5]`. -/
theorem clip_inScale (v : Option ℤ) : inScale (clip v) := by
  rcases v with _ | n <;> simp [clip, inScale] <;> omega

/-- The purity-cap ladder always yields a value in `[1, 5]`. -/
theorem purityCap_inScale (pct : ℚ) : inScale (purityCap pct) := by
  unfold purityCap inScale
  split_ifs <;> omega

/-- Lemma: `clamp_scale_scores` establishes the range invariant. -/
theorem clamp_scale_scores_in_range (raw : RawScore) :
    scoreInRange (clamp_scale_scores raw) := by
  refine ⟨⟨?_, ?_, ?_, ?_, ?_, ?_⟩, ⟨?_, ?_, ?_, ?_, ?_, ?_⟩,
    ⟨?_, ?_, ?_, ?_, ?_⟩, ⟨?_, ?_, ?_, ?_, ?_, ?_⟩⟩ <;>
    exact clip_inScale _


/-- Lemma: `apply_purity_penalty` preserves the range invariant. -/
theorem apply_purity_penalty_in_range (answer : List Char) (d : Score)
    (h : scoreInRange d) : scoreInRange (apply_purity_penalty answer d) := by
  obtain ⟨dA, dK, dI, g, t, c, ct, p, pr, o, hp⟩ := d
  obtain ⟨hA, hK, hI, h1, h2, h3, h4, h5, h6⟩ := h
  have hcap := purityCap_inScale (basic_language_metrics answer).arabic_char_pct
  refine ⟨hA, hK, hI, ?_⟩
  simp only [inScale] at h1 h2 h3 h4 h5 h6 hcap
  unfold apply_purity_penalty
  dsimp only
  split_ifs <;> simp_all [arabicInRange, inScale] <;> omega

/-- Lemma: `clamp_all_overalls` preserves the range invariant. -/
theorem clamp_all_overalls_in_range (d : Score) (h : scoreInRange d) :
    scoreInRange (clamp_all_overalls d) := by
  obtain ⟨⟨a1, a2, a3, a4, a5, a6⟩, ⟨k1, k2, k3, k4, k5, k6⟩,
    ⟨i1, i2, i3, i4, i5⟩, ⟨r1, r2, r3, r4, r5, r6⟩⟩ := h
  have hA := clamp_overall_in_range d.Adherence.Overall (adherenceVals d.Adherence)
    a6 (by intro x hx; simp [adherenceVals] at hx; rcases hx with h | h | h | h | h <;>
      subst h <;> assumption)
  have hK := clamp_overall_in_range d.Kindness_and_Gentleness.Overall
    (kindnessVals d.Kindness_and_Gentleness)
    k6 (by intro x hx; simp [kindnessVals] at hx; rcases hx with h | h | h | h | h <;>
      subst h <;> assumption)
  have hI := clamp_overall_in_range d.Interfaith_Sensitivity.Overall
    (interfaithVals d.Interfaith_Sensitivity)
    i5 (by intro x hx; simp [interfaithVals] at hx; rcases hx with h | h | h | h <;>
      subst h <;> assumption)
  have hR := clamp_overall_in_range d.Arabic_Accuracy.Overall
    (arabicVals d.Arabic_Accuracy)
    r6 (by intro x hx; simp [arabicVals] at hx; rcases hx with h | h | h | h | h <;>
      subst h <;> assumption)
  exact ⟨⟨a1, a2, a3, a4, a5, hA⟩, ⟨k1, k2, k3, k4, k5, hK⟩,
    ⟨i1, i2, i3, i4, hI⟩, ⟨r1, r2, r3, r4, r5, hR⟩⟩

/-- Lemma: `enforce_knockouts` preserves the range invariant. -/
theorem enforce_knockouts_in_range (answer : List Char) (d : Score)
    (h : scoreInRange d) : scoreInRange (enforce_knockouts answer d) := by
  obtain ⟨dA, dK, dI, dR⟩ := d
  obtain ⟨a1, a2, a3, a4, a5, a6⟩ := dA
  obtain ⟨i1, i2, i3, i4, i5⟩ := dI
  obtain ⟨g, t, c, ct, p, pr, o, hp⟩ := dR
  obtain ⟨hA, hK, hI, hR⟩ := h
  unfold enforce_knockouts
  split_ifs with hE
  · simp [emptyKnockout, scoreInRange, adherenceInRange, kindnessInRange,
      interfaithInRange, arabicInRange, inScale]
  · refine ⟨?_, hK, ?_, ?_⟩ <;>
    · simp only [adherenceInRange, interfaithInRange, arabicInRange, inScale] at hA hI hR ⊢
      try dsimp only
      split_ifs <;> simp_all <;> omega

/-- Lemma: `adjust_boldness` preserves the range invariant. -/
theorem adjust_boldness_in_range (answer : List Char) (d : Score)
    (h : scoreInRange d) : scoreInRange (adjust_boldness answer d) := by
  obtain ⟨dA, dK, dI, dR⟩ := d
  obtain ⟨i1, i2, i3, i4, i5⟩ := dI
  obtain ⟨hA, hK, hI, hR⟩ := h
  refine ⟨hA, hK, ?_, hR⟩
  simp only [interfaithInRange, inScale] at hI ⊢
  unfold adjust_boldness
  dsimp only
  split_ifs <;> simp_all <;> omega

/-- The full pipeline establishes the range invariant. -/
theorem evaluate_normalize_in_range (answer : List Char) (raw : RawScore) :
    scoreInRange (evaluate_normalize answer raw) :=
  clamp_all_overalls_in_range _
    (adjust_boldness_in_range _ _
      (enforce_knockouts_in_range _ _
        (clamp_all_overalls_in_range _
          (apply_purity_penalty_in_range _ _
            (clamp_scale_scores_in_range raw)))))

/-- C1 (claim): every integer field of every normalized score is in
`[1, 5]`, and a non-integer/missing raw value is clipped to 1. -/
theorem c1_normalized_fields_in_range :
    (∀ (raw : RawScore) (answer : List Char),
      scoreInRange (evaluate_normalize answer raw)) ∧ clip none = 1 :=
  ⟨fun raw answer => evaluate_normalize_in_range answer raw, rfl⟩

/-! Section: The `Overall` band invariant (claim C2) -/

/-- Band predicate: `overall` is within `±1` of the rounded arithmetic mean of `vals`. -/
def overallBand (overall : ℤ) (vals : List ℤ) : Prop :=
  pyRound ((vals.sum : ℚ) / (vals.length : ℚ)) - 1 ≤ overall ∧
    overall ≤ pyRound ((vals.sum : ℚ) / (vals.length : ℚ)) + 1

/-- Every section's `Overall` is within `±1` of the rounded mean of that
section's other integer fields. -/
def sectionBands (s : Score) : Prop :=
  overallBand s.Adherence.Overall (adherenceVals s.Adherence) ∧
  overallBand s.Kindness_and_Gentleness.Overall (kindnessVals s.Kindness_and_Gentleness) ∧
  overallBand s.Interfaith_Sensitivity.Overall (interfaithVals s.Interfaith_Sensitivity) ∧
  overallBand s.Arabic_Accuracy.Overall (arabicVals s.Arabic_Accuracy)

/-- After `clamp_all_overalls`, every section satisfies the band invariant
with respect to its own (unchanged) component fields. -/
theorem clamp_all_overalls_band (d : Score) : sectionBands (clamp_all_overalls d) := by
  obtain ⟨dA, dK, dI, dR⟩ := d
  obtain ⟨a1, a2, a3, a4, a5, a6⟩ := dA
  obtain ⟨k1, k2, k3, k4, k5, k6⟩ := dK
  obtain ⟨i1, i2, i3, i4, i5⟩ := dI
  obtain ⟨g, t, c, ct, p, pr, o, hp⟩ := dR
  refine ⟨?_, ?_, ?_, ?_⟩ <;>
    exact clamp_overall_band _ _ (by simp [adherenceVals, kindnessVals,
      interfaithVals, arabicVals])

/-- C2 (claim): in the fully normalized output, each section's `Overall`
lies within `±1` of the rounded arithmetic mean of that section's other
integer fields as they stand in the output. -/
theorem c2_overall_within_band (raw : RawScore) (answer : List Char) :
    sectionBands (evaluate_normalize answer raw) :=
  clamp_all_overalls_band _

/-! Section: The empty-answer knockout (claim C3) -/

/-- Characters of a prefix occur in the longer list. -/
theorem startsWith_subset (p t : List Char) (h : startsWith p t = true) :
    ∀ c ∈ p, c ∈ t := by
  induction p generalizing t with
  | nil => intro c hc; simp at hc
  | cons x xs ih =>
    cases t with
    | nil => simp [startsWith] at h
    | cons y ys =>
      simp only [startsWith, Bool.and_eq_true, beq_iff_eq] at h
      intro c hc
      rcases List.mem_cons.mp hc with hce | hce
      · subst hce; rw [h.1]; exact List.mem_cons_self _ _
      · exact List.mem_cons_of_mem _ (ih ys h.2 c hce)

/-- Characters of a matched substring occur in the text. -/
theorem containsSub_subset (p t : List Char) (h : containsSub p t = true) :
    ∀ c ∈ p, c ∈ t := by
  induction t with
  | nil =>
    intro c hc
    simp only [containsSub, List.isEmpty_iff] at h
    subst h; simp at hc
  | cons y ys ih =>
    simp only [containsSub, Bool.or_eq_true] at h
    intro c hc
    rcases h with h | h
    · exact startsWith_subset _ _ h c hc
    · exact List.mem_cons_of_mem _ (ih h c hc)

/-- A whitespace code point is never alphabetic. -/
theorem space_not_alpha (c : Char) (h : pyIsSpace c = true) : pyIsAlpha c = false := by
  unfold pyIsSpace at h
  unfold pyIsAlpha
  simp only [Bool.or_eq_true, Bool.and_eq_true, decide_eq_true_eq, beq_iff_eq] at h
  simp only [Bool.or_eq_false_iff, Bool.and_eq_false_iff, decide_eq_false_iff_not, not_le]
  omega

/-- A pattern containing a non-whitespace character never matches inside a
whitespace-only text. -/
theorem no_sub_of_all_space (answer p : List Char) (c : Char)
    (hc : c ∈ p) (hcs : pyIsSpace c = false)
    (h : answer.all pyIsSpace = true) : containsSub p answer = false := by
  by_contra hx
  have hx' : containsSub p answer = true := by
    revert hx; cases containsSub p answer <;> simp
  have hmem := containsSub_subset _ _ hx' c hc
  have := List.all_eq_true.mp h c hmem
  rw [hcs] at this
  exact Bool.false_ne_true this

/-- No bold keyword matches a whitespace-only answer. -/
theorem hasBold_of_all_space (answer : List Char)
    (h : answer.all pyIsSpace = true) : hasBold answer = false := by
  unfold hasBold BOLD_KEYWORDS
  simp only [List.any_cons, List.any_nil, Bool.or_eq_false_iff]
  refine ⟨?_, ?_, ?_, ?_, ?_, ?_, ?_, ?_, trivial⟩
  · exact no_sub_of_all_space answer _ 'ي' (by decide) (by decide) h
  · exact no_sub_of_all_space answer _ 'ا' (by decide) (by decide) h
  · exact no_sub_of_all_space answer _ 'ا' (by decide) (by decide) h
  · exact no_sub_of_all_space answer _ 'ا' (by decide) (by decide) h
  · exact no_sub_of_all_space answer _ 'ا' (by decide) (by decide) h
  · exact no_sub_of_all_space answer _ 'ا' (by decide) (by decide) h
  · exact no_sub_of_all_space answer _ 'ا' (by decide) (by decide) h
  · exact no_sub_of_all_space answer _ 'ا' (by decide) (by decide) h

/-- A whitespace-only answer has no letters, so its heuristic purity
percentage is 0. -/
theorem pct_of_all_space (answer : List Char) (h : answer.all pyIsSpace = true) :
    (basic_language_metrics answer).arabic_char_pct = 0 := by
  have hfil : answer.filter pyIsAlpha = [] := by
    rw [List.filter_eq_nil]
    intro c hc
    have := List.all_eq_true.mp h c hc
    simp [space_not_alpha c this]
  unfold basic_language_metrics
  simp [hfil]

/-- Lemma: `pyRound` is the identity on integers. -/
theorem pyRound_intCast (n : ℤ) : pyRound ((n : ℤ) : ℚ) = n := by
  rw [pyRound_def]
  norm_num

/-- Clamping an all-ones five-element section keeps `Overall = 1`. -/
theorem clamp_overall_ones5 : clamp_overall 1 [1, 1, 1, 1, 1] = 1 := by
  unfold clamp_overall
  have h5 : (([1, 1, 1, 1, 1] : List ℤ).sum : ℚ) / (([1, 1, 1, 1, 1] : List ℤ).length : ℚ)
      = ((1 : ℤ) : ℚ) := by norm_num
  simp only [List.sum_cons, List.sum_nil, List.length_cons, List.length_nil] at h5 ⊢
  rw [if_neg (by simp), h5, pyRound_intCast]
  norm_num

/-- Clamping an all-ones four-element section keeps `Overall = 1`. -/
theorem clamp_overall_ones4 : clamp_overall 1 [1, 1, 1, 1] = 1 := by
  unfold clamp_overall
  have h4 : (([1, 1, 1, 1] : List ℤ).sum : ℚ) / (([1, 1, 1, 1] : List ℤ).length : ℚ)
      = ((1 : ℤ) : ℚ) := by norm_num
  simp only [List.sum_cons, List.sum_nil, List.length_cons, List.length_nil] at h4 ⊢
  rw [if_neg (by simp), h4, pyRound_intCast]
  norm_num

/-- The empty-answer branch of `enforce_knockouts`. -/
theorem enforce_knockouts_empty (answer : List Char) (d : Score)
    (hE : answer.all pyIsSpace = true) :
    enforce_knockouts answer d = emptyKnockout d := by
  unfold enforce_knockouts
  simp [hE]

/-- Lemma: `adjust_boldness` does not change an all-ones score when no bold
keyword matches. -/
theorem adjust_boldness_empty (answer : List Char) (d : Score)
    (hB : hasBold answer = false) :
    adjust_boldness answer (emptyKnockout d) = emptyKnockout d := by
  unfold adjust_boldness emptyKnockout
  simp only [hB, Bool.false_eq_true, not_false_eq_true, and_true, false_and, if_false]
  split_ifs with h1 h2
  · exact absurd h2 (by norm_num)
  · norm_num
  · rfl

/-- Lemma: `clamp_all_overalls` fixes the all-ones score. -/
theorem clamp_all_overalls_empty (d : Score) :
    clamp_all_overalls (emptyKnockout d) = emptyKnockout d := by
  unfold clamp_all_overalls emptyKnockout
  dsimp only [adherenceVals, kindnessVals, interfaithVals, arabicVals]
  rw [clamp_overall_ones5, clamp_overall_ones4]

/-- The all-ones result of the empty-answer knockout, as it leaves the
full pipeline (heuristic percentage 0). -/
def emptyAnswerScore : Score :=
  ⟨⟨1, 1, 1, 1, 1, 1⟩, ⟨1, 1, 1, 1, 1, 1⟩, ⟨1, 1, 1, 1, 1⟩,
   ⟨1, 1, 1, 1, 1, some "Empty answer", 1, some 0⟩⟩

/-- On a whitespace-only answer the pipeline produces exactly the all-ones
score with the `"Empty answer"` marker, and nothing after the knockout
changes it. -/
theorem evaluate_normalize_empty_eq (answer : List Char) (raw : RawScore)
    (hE : answer.all pyIsSpace = true) :
    evaluate_normalize answer raw =
      enforce_knockouts answer (clamp_all_overalls
        (apply_purity_penalty answer (clamp_scale_scores raw))) ∧
    evaluate_normalize answer raw = emptyAnswerScore := by
  have hB := hasBold_of_all_space answer hE
  have hpct := pct_of_all_space answer hE
  have hknock := enforce_knockouts_empty answer
    (clamp_all_overalls (apply_purity_penalty answer (clamp_scale_scores raw))) hE
  have heval : evaluate_normalize answer raw =
      emptyKnockout (clamp_all_overalls (apply_purity_penalty answer (clamp_scale_scores raw))) := by
    unfold evaluate_normalize
    rw [hknock, adjust_boldness_empty answer _ hB, clamp_all_overalls_empty]
  have hH : (clamp_all_overalls (apply_purity_penalty answer
      (clamp_scale_scores raw))).Arabic_Accuracy.Heuristic_Arabic_Purity_Pct
      = some (0 : ℚ) := by
    show (apply_purity_penalty answer
      (clamp_scale_scores raw)).Arabic_Accuracy.Heuristic_Arabic_Purity_Pct = some (0 : ℚ)
    rw [show (apply_purity_penalty answer
      (clamp_scale_scores raw)).Arabic_Accuracy.Heuristic_Arabic_Purity_Pct
      = some (basic_language_metrics answer).arabic_char_pct from rfl, hpct]
  constructor
  · rw [heval, hknock]
  · rw [heval]
    unfold emptyKnockout emptyAnswerScore
    rw [hH]

/-- C3 (claim): a whitespace-only (or empty) answer yields a score whose
fields are all 1, with `Penalty_Reason = "Empty answer"`, and the steps
after the knockout change nothing. -/
theorem c3_empty_answer (raw : RawScore) (answer : List Char)
    (hE : answer.all pyIsSpace = true) :
    evaluate_normalize answer raw = emptyAnswerScore ∧
      evaluate_normalize answer raw =
        enforce_knockouts answer (clamp_all_overalls
          (apply_purity_penalty answer (clamp_scale_scores raw))) :=
  ⟨(evaluate_normalize_empty_eq answer raw hE).2,
   (evaluate_normalize_empty_eq answer raw hE).1⟩

/-- A concrete raw judge score used by witnesses: mixed values, including
an out-of-range value and a non-integer (`none`) value. -/
def rawMixed : RawScore :=
  ⟨⟨some 4, some 7, some 2, none, some 5, some 4⟩,
   ⟨some 3, some 4, some 5, some 2, some 4, some 4⟩,
   ⟨some 4, some 3, some 5, some 4, some 4⟩,
   ⟨some 5, some 4, some 3, some 4, some 5, some "judge note", some 4⟩⟩

unseal Rat.mul Rat.sub Rat.add Rat.inv in
/-- Witness for C3 at the concrete whitespace answer `" \t"`. -/
theorem c3_empty_answer_witness :
    ((lc " \t").all pyIsSpace = true) ∧
      evaluate_normalize (lc " \t") rawMixed = emptyAnswerScore ∧
      evaluate_normalize (lc " \t") rawMixed =
        enforce_knockouts (lc " \t") (clamp_all_overalls
          (apply_purity_penalty (lc " \t") (clamp_scale_scores rawMixed))) :=
  ⟨by decide, (c3_empty_answer rawMixed (lc " \t") (by decide)).1,
   (c3_empty_answer rawMixed (lc " \t") (by decide)).2⟩

/-! Section: Knockout-ceiling claims (C6, C7) -/

/-- The non-empty branch of `enforce_knockouts`, written out. -/
theorem enforce_knockouts_nonempty (answer : List Char) (d : Score)
    (hE : answer.all pyIsSpace = false) :
    enforce_knockouts answer d =
      { d with
        Adherence :=
          if d.Adherence.Core ≤ 2 ∧ d.Adherence.Overall > 3 then
            { d.Adherence with Overall := 3 }
          else d.Adherence
        Interfaith_Sensitivity :=
          if d.Interfaith_Sensitivity.Respect_and_Handling_Objections ≤ 1 ∧
              d.Interfaith_Sensitivity.Overall > 2 then
            { d.Interfaith_Sensitivity with Overall := 2 }
          else d.Interfaith_Sensitivity
        Arabic_Accuracy :=
          if d.Arabic_Accuracy.Arabic_Purity ≤ 2 ∧ d.Arabic_Accuracy.Grammar > 3 then
            { d.Arabic_Accuracy with
              Grammar := 3
              Penalty_Reason := some (appendReason d.Arabic_Accuracy.Penalty_Reason
                "Grammar capped due to low purity (knockout)") }
          else d.Arabic_Accuracy } := by
  unfold enforce_knockouts
  rw [if_neg (by simp [hE])]

/-- Generic bound: if `2 * s < (2 * n + 1) * len` then the rounded mean
`round(s / len)` is at most `n`. -/
theorem pyRound_div_le (s : ℤ) (len : ℕ) (n : ℤ) (hlen : 0 < len)
    (h : 2 * s < (2 * n + 1) * (len : ℤ)) :
    pyRound ((s : ℚ) / (len : ℚ)) ≤ n := by
  apply pyRound_le_of_lt_half
  have hlenQ : (0 : ℚ) < (len : ℚ) := by exact_mod_cast hlen
  rw [div_lt_iff hlenQ]
  have h' : (2 * (s : ℚ)) < (2 * (n : ℚ) + 1) * (len : ℚ) := by exact_mod_cast h
  linarith

/-- C6 (claim): if the output's `Adherence.Core` is at most 2, the output's
`Adherence.Overall` is at most 3 — the knockout ceiling survives the final
re-clamp. -/
theorem c6_adherence_knockout_ceiling (raw : RawScore) (answer : List Char)
    (hc : (evaluate_normalize answer raw).Adherence.Core ≤ 2) :
    (evaluate_normalize answer raw).Adherence.Overall ≤ 3 := by
  by_cases hE : answer.all pyIsSpace = true
  · rw [(evaluate_normalize_empty_eq answer raw hE).2]
    norm_num [emptyAnswerScore]
  · have hEf : answer.all pyIsSpace = false := by
      revert hE; cases answer.all pyIsSpace <;> simp
    set dm := clamp_all_overalls (apply_purity_penalty answer (clamp_scale_scores raw)) with hdm
    have hrange : scoreInRange dm :=
      clamp_all_overalls_in_range _
        (apply_purity_penalty_in_range _ _ (clamp_scale_scores_in_range raw))
    obtain ⟨⟨hC1, hC2, hC3, hC4, hC5, hC6⟩, -, -, -⟩ := hrange
    have hknock := enforce_knockouts_nonempty answer dm hEf
    have hcore : dm.Adherence.Core ≤ 2 := by
      have hcc : (evaluate_normalize answer raw).Adherence.Core
          = (enforce_knockouts answer dm).Adherence.Core := rfl
      rw [hcc, hknock] at hc
      dsimp only at hc
      split_ifs at hc <;> exact hc
    have hkOver : (enforce_knockouts answer dm).Adherence.Overall ≤ 3 := by
      rw [hknock]
      dsimp only
      split_ifs with hcond
      · norm_num
      · omega
    have hvals : adherenceVals (enforce_knockouts answer dm).Adherence
        = adherenceVals dm.Adherence := by
      rw [hknock]
      dsimp only
      split_ifs <;> rfl
    show clamp_overall (enforce_knockouts answer dm).Adherence.Overall
      (adherenceVals (enforce_knockouts answer dm).Adherence) ≤ 3
    rw [hvals]
    apply clamp_overall_le _ _ _ hkOver
    dsimp only [adherenceVals]
    simp only [List.sum_cons, List.sum_nil, List.length_cons, List.length_nil]
    have h4 := pyRound_div_le
      (dm.Adherence.Core + (dm.Adherence.Secondary + (dm.Adherence.Tertiary_Handling +
        (dm.Adherence.Biblical_Basis + (dm.Adherence.Consistency + 0))))) 5 4
      (by norm_num) (by simp only [inScale] at hC1 hC2 hC3 hC4 hC5; omega)
    convert h4 using 3 <;> push_cast <;> ring

/-- A concrete raw score with `Adherence.Core = 2` and everything else 5. -/
def rawCore2 : RawScore :=
  ⟨⟨some 2, some 5, some 5, some 5, some 5, some 5⟩,
   ⟨some 5, some 5, some 5, some 5, some 5, some 5⟩,
   ⟨some 5, some 5, some 5, some 5, some 5⟩,
   ⟨some 5, some 5, some 5, some 5, some 5, none, some 5⟩⟩

unseal Rat.mul Rat.sub Rat.add Rat.inv in
/-- Witness for C6: a raw score with `Core = 2` and all-5 elsewhere, on a
pure-Arabic answer. -/
theorem c6_adherence_knockout_ceiling_witness :
    (evaluate_normalize (lc "يسوع") rawCore2).Adherence.Core ≤ 2 ∧
      (evaluate_normalize (lc "يسوع") rawCore2).Adherence.Overall ≤ 3 :=
  ⟨by decide, c6_adherence_knockout_ceiling rawCore2 (lc "يسوع") (by decide)⟩

/-- Lemma: `adjust_boldness` never changes the interfaith-respect sub-criterion. -/
theorem adjust_boldness_Respect (answer : List Char) (d : Score) :
    (adjust_boldness answer d).Interfaith_Sensitivity.Respect_and_Handling_Objections
      = d.Interfaith_Sensitivity.Respect_and_Handling_Objections := by
  unfold adjust_boldness
  dsimp only
  split_ifs <;> rfl

/-- Lemma: `adjust_boldness` never changes the interfaith `Overall`. -/
theorem adjust_boldness_interfaith_Overall (answer : List Char) (d : Score) :
    (adjust_boldness answer d).Interfaith_Sensitivity.Overall
      = d.Interfaith_Sensitivity.Overall := by
  unfold adjust_boldness
  dsimp only
  split_ifs <;> rfl

/-- C7 (amended): if the output's interfaith-respect sub-criterion is at
most 1, the output's `Interfaith_Sensitivity.Overall` is at most 3 (the
knockout writes 2, but the final re-clamp can raise it back to 3). -/
theorem c7_amended_interfaith_ceiling (raw : RawScore) (answer : List Char)
    (hr : (evaluate_normalize answer raw).Interfaith_Sensitivity.Respect_and_Handling_Objections ≤ 1) :
    (evaluate_normalize answer raw).Interfaith_Sensitivity.Overall ≤ 3 := by
  by_cases hE : answer.all pyIsSpace = true
  · rw [(evaluate_normalize_empty_eq answer raw hE).2]
    norm_num [emptyAnswerScore]
  · have hEf : answer.all pyIsSpace = false := by
      revert hE; cases answer.all pyIsSpace <;> simp
    set dm := clamp_all_overalls (apply_purity_penalty answer (clamp_scale_scores raw)) with hdm
    have hrange4 : scoreInRange (adjust_boldness answer (enforce_knockouts answer dm)) :=
      adjust_boldness_in_range _ _ (enforce_knockouts_in_range _ _
        (clamp_all_overalls_in_range _
          (apply_purity_penalty_in_range _ _ (clamp_scale_scores_in_range raw))))
    obtain ⟨-, -, ⟨hI1, hI2, hI3, hI4, hI5⟩, -⟩ := hrange4
    have hknock := enforce_knockouts_nonempty answer dm hEf
    have hr4 : (adjust_boldness answer
        (enforce_knockouts answer dm)).Interfaith_Sensitivity.Respect_and_Handling_Objections ≤ 1 := hr
    have hrk : (enforce_knockouts answer dm).Interfaith_Sensitivity.Respect_and_Handling_Objections ≤ 1 := by
      rw [adjust_boldness_Respect] at hr4; exact hr4
    have hrdm : dm.Interfaith_Sensitivity.Respect_and_Handling_Objections ≤ 1 := by
      rw [hknock] at hrk
      dsimp only at hrk
      split_ifs at hrk <;> exact hrk
    have hkO : (enforce_knockouts answer dm).Interfaith_Sensitivity.Overall ≤ 2 := by
      rw [hknock]
      dsimp only
      split_ifs with hcond
      · norm_num
      · omega
    have hsO : (adjust_boldness answer
        (enforce_knockouts answer dm)).Interfaith_Sensitivity.Overall ≤ 2 := by
      rw [adjust_boldness_interfaith_Overall]; exact hkO
    show clamp_overall (adjust_boldness answer
        (enforce_knockouts answer dm)).Interfaith_Sensitivity.Overall
      (interfaithVals (adjust_boldness answer
        (enforce_knockouts answer dm)).Interfaith_Sensitivity) ≤ 3
    apply clamp_overall_le _ _ _ (by omega)
    dsimp only [interfaithVals]
    simp only [List.sum_cons, List.sum_nil, List.length_cons, List.length_nil]
    have h4 := pyRound_div_le
      ((adjust_boldness answer (enforce_knockouts answer dm)).Interfaith_Sensitivity.Respect_and_Handling_Objections +
        ((adjust_boldness answer (enforce_knockouts answer dm)).Interfaith_Sensitivity.Objection_Acknowledgement +
          ((adjust_boldness answer (enforce_knockouts answer dm)).Interfaith_Sensitivity.Evangelism +
            ((adjust_boldness answer (enforce_knockouts answer dm)).Interfaith_Sensitivity.Gospel_Boldness + 0))))
      4 4 (by norm_num)
      (by simp only [inScale] at hI1 hI2 hI3 hI4; omega)
    convert h4 using 3 <;> push_cast <;> ring

/-- A concrete raw score with interfaith respect 1 and everything else 5. -/
def rawRespect1 : RawScore :=
  ⟨⟨some 5, some 5, some 5, some 5, some 5, some 5⟩,
   ⟨some 5, some 5, some 5, some 5, some 5, some 5⟩,
   ⟨some 1, some 5, some 5, some 5, some 5⟩,
   ⟨some 5, some 5, some 5, some 5, some 5, none, some 5⟩⟩

unseal Rat.mul Rat.sub Rat.add Rat.inv in
/-- Counterexample to C7 as stated: with raw interfaith scores
`(1, 5, 5, 5, 5)` on the answer `"يسوع"`, the knockout writes `Overall = 2`
but the final `clamp_all_overalls` raises it back to 3, so the output has
respect ≤ 1 yet `Overall = 3 > 2`. -/
theorem c7_counterexample_overall_exceeds_2 :
    (evaluate_normalize (lc "يسوع") rawRespect1).Interfaith_Sensitivity.Respect_and_Handling_Objections ≤ 1 ∧
      ¬ ((evaluate_normalize (lc "يسوع") rawRespect1).Interfaith_Sensitivity.Overall ≤ 2) := by
  decide

unseal Rat.mul Rat.sub Rat.add Rat.inv in
/-- Witness for the amended C7 at the same concrete input. -/
theorem c7_amended_interfaith_ceiling_witness :
    (evaluate_normalize (lc "يسوع") rawRespect1).Interfaith_Sensitivity.Respect_and_Handling_Objections ≤ 1 ∧
      (evaluate_normalize (lc "يسوع") rawRespect1).Interfaith_Sensitivity.Overall ≤ 3 :=
  ⟨by decide, c7_amended_interfaith_ceiling rawRespect1 (lc "يسوع") (by decide)⟩

/-! Section: Relativism/boldness adjustment (claim C9) -/

/-- When a relativistic-hedging phrase matches and no bold keyword does,
`adjust_boldness` caps `Gospel_Boldness` at 2 and `Evangelism` at 3. -/
theorem adjust_boldness_rel_caps (answer : List Char) (d : Score)
    (hRel : hasRelativism answer = true) (hB : hasBold answer = false) :
    (adjust_boldness answer d).Interfaith_Sensitivity.Gospel_Boldness ≤ 2 ∧
      (adjust_boldness answer d).Interfaith_Sensitivity.Evangelism ≤ 3 := by
  unfold adjust_boldness
  dsimp only
  simp only [hRel, hB, Bool.true_eq_false, Bool.false_eq_true, not_false_eq_true,
    and_true, true_and, false_and, and_false, if_false, if_true]
  split_ifs <;> refine ⟨?_, ?_⟩ <;> show (_ : ℤ) ≤ _ <;> dsimp only <;> omega

/-- C9 (claim): an answer matching a configured relativistic-hedging
phrase (case-insensitively) and no doctrinally-assertive keyword ends with
`Gospel_Boldness ≤ 2` and `Evangelism ≤ 3` after full normalization. -/
theorem c9_relativism_caps_boldness (raw : RawScore) (answer : List Char)
    (hRel : hasRelativism answer = true) (hB : hasBold answer = false) :
    (evaluate_normalize answer raw).Interfaith_Sensitivity.Gospel_Boldness ≤ 2 ∧
      (evaluate_normalize answer raw).Interfaith_Sensitivity.Evangelism ≤ 3 := by
  by_cases hE : answer.all pyIsSpace = true
  · rw [(evaluate_normalize_empty_eq answer raw hE).2]
    norm_num [emptyAnswerScore]
  · exact adjust_boldness_rel_caps answer
      (enforce_knockouts answer (clamp_all_overalls
        (apply_purity_penalty answer (clamp_scale_scores raw)))) hRel hB

unseal Rat.mul Rat.sub Rat.add Rat.inv in
/-- Witness for C9 at the concrete hedging answer "كل الأديان متشابهة". -/
theorem c9_relativism_caps_boldness_witness :
    hasRelativism (lc "كل الأديان متشابهة") = true ∧
      hasBold (lc "كل الأديان متشابهة") = false ∧
      (evaluate_normalize (lc "كل الأديان متشابهة") rawMixed).Interfaith_Sensitivity.Gospel_Boldness ≤ 2 ∧
      (evaluate_normalize (lc "كل الأديان متشابهة") rawMixed).Interfaith_Sensitivity.Evangelism ≤ 3 :=
  ⟨by decide, by decide,
   (c9_relativism_caps_boldness rawMixed (lc "كل الأديان متشابهة") (by decide) (by decide)).1,
   (c9_relativism_caps_boldness rawMixed (lc "كل الأديان متشابهة") (by decide) (by decide)).2⟩

/-! Section: The all-non-alphabetic purity edge case (claim C10) -/

/-- Every list is a prefix of itself. -/
theorem startsWith_self (p : List Char) : startsWith p p = true := by
  induction p with
  | nil => rfl
  | cons x xs ih => simp [startsWith, ih]

/-- Every list occurs inside itself. -/
theorem containsSub_self (p : List Char) : containsSub p p = true := by
  cases p with
  | nil => rfl
  | cons x xs => simp [containsSub, startsWith_self]

/-- The empty pattern occurs in every text. -/
theorem containsSub_nil (t : List Char) : containsSub [] t = true := by
  cases t <;> simp [containsSub, startsWith]

/-- Occurrence is stable under extending the text on the left. -/
theorem containsSub_append_left (x t p : List Char)
    (h : containsSub p t = true) : containsSub p (x ++ t) = true := by
  induction x with
  | nil => simpa using h
  | cons c cs ih => simp [containsSub, ih]

/-- A prefix stays a prefix after extending the text on the right. -/
theorem startsWith_append (p t u : List Char)
    (h : startsWith p t = true) : startsWith p (t ++ u) = true := by
  induction p generalizing t with
  | nil => rfl
  | cons x xs ih =>
    cases t with
    | nil => simp [startsWith] at h
    | cons y ys =>
      simp only [startsWith, Bool.and_eq_true, beq_iff_eq] at h
      simp [startsWith, h.1, ih ys h.2]

/-- Occurrence is stable under extending the text on the right. -/
theorem containsSub_append_right (t u p : List Char)
    (h : containsSub p t = true) : containsSub p (t ++ u) = true := by
  induction t with
  | nil =>
    simp only [containsSub, List.isEmpty_iff] at h
    subst h
    exact containsSub_nil u
  | cons c cs ih =>
    simp only [containsSub, Bool.or_eq_true] at h
    rcases h with h | h
    · simpa [containsSub] using Or.inl (startsWith_append p (c :: cs) u h)
    · simpa [containsSub] using Or.inr (ih h)

/-- Lemma: `appendReason` keeps the appended message as a substring. -/
theorem appendReason_contains (old : Option String) (msg : String) :
    containsSub msg.data (appendReason old msg).data = true := by
  rcases old with _ | r
  · exact containsSub_self _
  · unfold appendReason
    dsimp only
    split_ifs
    · exact containsSub_self _
    · rw [show (r ++ " | " ++ msg).data = (r ++ " | ").data ++ msg.data from
        String.data_append _ _]
      exact containsSub_append_left _ _ _ (containsSub_self _)

/-- Extending an existing reason with a further message keeps previous
substring matches. -/
theorem appendReason_contains_prev (t g : String) (m : List Char)
    (hm : containsSub m t.data = true) :
    containsSub m (appendReason (some t) g).data = true := by
  unfold appendReason
  dsimp only
  split_ifs with h
  · subst h
    simp only [List.isEmpty_iff] at hm
    have : m = [] := by
      cases m with
      | nil => rfl
      | cons c cs => simp [containsSub, String.data] at hm
    subst this
    exact containsSub_nil _
  · rw [show (t ++ " | " ++ g).data = (t ++ " | ").data ++ g.data from
      String.data_append _ _]
    refine containsSub_append_right _ _ _ ?_
    rw [String.data_append]
    exact containsSub_append_right _ _ _ hm

/-- An answer with no alphabetic characters has heuristic purity 0. -/
theorem pct_of_no_alpha (answer : List Char)
    (hA : ∀ c ∈ answer, pyIsAlpha c = false) :
    (basic_language_metrics answer).arabic_char_pct = 0 := by
  have hfil : answer.filter pyIsAlpha = [] := by
    rw [List.filter_eq_nil]
    intro c hc
    simp [hA c hc]
  unfold basic_language_metrics
  simp [hfil]

/-- Purity 0 maps to the harshest cap. -/
theorem purityCap_zero : purityCap 0 = 1 := by
  unfold purityCap
  norm_num

unseal Rat.mul in
/-- Python renders the zero percentage as `0.0`. -/
theorem fmtPct_zero : fmtPct 0 = "0.0" := by decide

/-- Effect of `apply_purity_penalty` on an answer with no alphabetic
characters: purity forced to 1, grammar capped at 3, section overall
capped at 3, heuristic percentage recorded as 0, and a capping reason
appended whenever the incoming purity exceeded 1. -/
theorem apply_purity_penalty_no_alpha (answer : List Char) (d : Score)
    (hd : scoreInRange d) (hA : ∀ c ∈ answer, pyIsAlpha c = false) :
    (apply_purity_penalty answer d).Arabic_Accuracy.Arabic_Purity = 1 ∧
    (apply_purity_penalty answer d).Arabic_Accuracy.Grammar ≤ 3 ∧
    (apply_purity_penalty answer d).Arabic_Accuracy.Overall ≤ 3 ∧
    (apply_purity_penalty answer d).Arabic_Accuracy.Heuristic_Arabic_Purity_Pct = some 0 ∧
    (d.Arabic_Accuracy.Arabic_Purity > 1 →
      ∃ r, (apply_purity_penalty answer d).Arabic_Accuracy.Penalty_Reason = some r ∧
        containsSub (lc "Capped purity (heuristic 0.0%)") r.data = true) := by
  obtain ⟨-, -, -, hr1, hr2, hr3, hr4, hr5, hr6⟩ := hd
  simp only [inScale] at hr1 hr2 hr3 hr4 hr5 hr6
  have hpct := pct_of_no_alpha answer hA
  have hmsg : "Capped purity (heuristic " ++ fmtPct 0 ++ "%)"
      = "Capped purity (heuristic 0.0%)" := by rw [fmtPct_zero]; rfl
  unfold apply_purity_penalty
  dsimp only
  rw [hpct, purityCap_zero, hmsg]
  split_ifs <;> try dsimp only at * <;> skip
  all_goals refine ⟨?_, ?_, ?_, rfl, fun hP => ?_⟩
  all_goals
    first
      | omega
      | exact ⟨_, rfl, appendReason_contains_prev _ _ _ (appendReason_contains _ _)⟩
      | exact ⟨_, rfl, appendReason_contains _ _⟩
      | exact absurd hP (by omega)

/-- Lemma: `adjust_boldness` never touches the `Arabic_Accuracy` section. -/
theorem adjust_boldness_arabic (answer : List Char) (d : Score) :
    (adjust_boldness answer d).Arabic_Accuracy = d.Arabic_Accuracy := rfl

/-- Clamping bound for an `Arabic_Accuracy` section with grammar at most 3
and purity 1. -/
theorem clamp_overall_arabic_le3 (a : ArabicAccuracy) (hG : a.Grammar ≤ 3)
    (hP : a.Arabic_Purity = 1) (hT : a.Theological_Nuance ≤ 5)
    (hC : a.Contextual_Clarity ≤ 5) (hCt : a.Consistency_of_Terms ≤ 5)
    (hO : a.Overall ≤ 3) :
    clamp_overall a.Overall (arabicVals a) ≤ 3 := by
  apply clamp_overall_le _ _ _ hO
  dsimp only [arabicVals]
  simp only [List.sum_cons, List.sum_nil, List.length_cons, List.length_nil]
  have h4 := pyRound_div_le
    (a.Grammar + (a.Theological_Nuance + (a.Contextual_Clarity +
      (a.Consistency_of_Terms + (a.Arabic_Purity + 0))))) 5 4
    (by norm_num) (by omega)
  convert h4 using 3 <;> push_cast <;> ring

/-- C10 (amended): a non-whitespace answer with no alphabetic characters
gets purity percentage 0, hence `Arabic_Purity = 1`, grammar and section
overall capped at 3, heuristic 0 recorded, and — whenever the clamped raw
purity exceeded 1 — a capping reason in the output. -/
theorem c10_amended_non_alpha (raw : RawScore) (answer : List Char)
    (hW : answer.all pyIsSpace = false)
    (hA : ∀ c ∈ answer, pyIsAlpha c = false) :
    (evaluate_normalize answer raw).Arabic_Accuracy.Heuristic_Arabic_Purity_Pct = some 0 ∧
    (evaluate_normalize answer raw).Arabic_Accuracy.Arabic_Purity = 1 ∧
    (evaluate_normalize answer raw).Arabic_Accuracy.Grammar ≤ 3 ∧
    (evaluate_normalize answer raw).Arabic_Accuracy.Overall ≤ 3 ∧
    ((clamp_scale_scores raw).Arabic_Accuracy.Arabic_Purity > 1 →
      ∃ r, (evaluate_normalize answer raw).Arabic_Accuracy.Penalty_Reason = some r ∧
        strContainsSub "Capped purity (heuristic 0.0%)" r = true) := by
  obtain ⟨hP2, hG2, hO2, hH2, hRsn⟩ := apply_purity_penalty_no_alpha answer
    (clamp_scale_scores raw) (clamp_scale_scores_in_range raw) hA
  obtain ⟨-, -, -, hg2, ht2, hc2, hct2, hp2, ho2⟩ :=
    apply_purity_penalty_in_range answer _ (clamp_scale_scores_in_range raw)
  simp only [inScale] at ht2 hc2 hct2
  set s2 := apply_purity_penalty answer (clamp_scale_scores raw) with hs2
  set s3 := clamp_all_overalls s2 with hs3
  have hG3 : s3.Arabic_Accuracy.Grammar = s2.Arabic_Accuracy.Grammar := rfl
  have hP3 : s3.Arabic_Accuracy.Arabic_Purity = s2.Arabic_Accuracy.Arabic_Purity := rfl
  have hO3 : s3.Arabic_Accuracy.Overall ≤ 3 := by
    show clamp_overall s2.Arabic_Accuracy.Overall (arabicVals s2.Arabic_Accuracy) ≤ 3
    exact clamp_overall_arabic_le3 _ hG2 hP2 ht2.2 hc2.2 hct2.2 hO2
  have hknock := enforce_knockouts_nonempty answer s3 hW
  have hAr4 : (enforce_knockouts answer s3).Arabic_Accuracy = s3.Arabic_Accuracy := by
    rw [hknock]
    show (if s3.Arabic_Accuracy.Arabic_Purity ≤ 2 ∧ s3.Arabic_Accuracy.Grammar > 3
      then _ else s3.Arabic_Accuracy) = s3.Arabic_Accuracy
    rw [if_neg]
    rintro ⟨-, hgg⟩
    rw [hG3] at hgg
    omega
  have hout : evaluate_normalize answer raw
      = clamp_all_overalls (adjust_boldness answer (enforce_knockouts answer s3)) := rfl
  have hAr5 : (adjust_boldness answer (enforce_knockouts answer s3)).Arabic_Accuracy
      = s3.Arabic_Accuracy := by
    rw [adjust_boldness_arabic, hAr4]
  refine ⟨?_, ?_, ?_, ?_, ?_⟩
  · show (adjust_boldness answer
      (enforce_knockouts answer s3)).Arabic_Accuracy.Heuristic_Arabic_Purity_Pct = some 0
    rw [hAr5]
    exact hH2
  · show (adjust_boldness answer
      (enforce_knockouts answer s3)).Arabic_Accuracy.Arabic_Purity = 1
    rw [hAr5, hP3]
    exact hP2
  · show (adjust_boldness answer
      (enforce_knockouts answer s3)).Arabic_Accuracy.Grammar ≤ 3
    rw [hAr5, hG3]
    exact hG2
  · show clamp_overall (adjust_boldness answer
        (enforce_knockouts answer s3)).Arabic_Accuracy.Overall
      (arabicVals (adjust_boldness answer
        (enforce_knockouts answer s3)).Arabic_Accuracy) ≤ 3
    rw [hAr5]
    refine clamp_overall_arabic_le3 _ ?_ ?_ ?_ ?_ ?_ hO3
    · rw [hG3]; exact hG2
    · rw [hP3]; exact hP2
    · exact ht2.2
    · exact hc2.2
    · exact hct2.2
  · intro hP1
    obtain ⟨r, hr, hcont⟩ := hRsn hP1
    refine ⟨r, ?_, hcont⟩
    show (adjust_boldness answer
      (enforce_knockouts answer s3)).Arabic_Accuracy.Penalty_Reason = some r
    rw [hAr5]
    exact hr

unseal Rat.mul Rat.sub Rat.add Rat.inv in
/-- Counterexample to C10 as stated: the single-space answer is non-empty
and has no alphabetic characters, but the empty-answer knockout fires, so
the output's reason is the literal `"Empty answer"` and no capping reason
survives. -/
theorem c10_counterexample_whitespace_answer :
    (lc " " ≠ ([] : List Char)) ∧
      (∀ c ∈ lc " ", pyIsAlpha c = false) ∧
      (clamp_scale_scores rawMixed).Arabic_Accuracy.Arabic_Purity > 1 ∧
      (evaluate_normalize (lc " ") rawMixed).Arabic_Accuracy.Penalty_Reason
        = some "Empty answer" ∧
      strContainsSub "Capped purity (heuristic 0.0%)" "Empty answer" = false := by
  decide

unseal Rat.mul Rat.sub Rat.add Rat.inv in
/-- Witness for the amended C10 at the digits-only answer `"123"`. -/
theorem c10_amended_non_alpha_witness :
    ((lc "123").all pyIsSpace = false) ∧
      (∀ c ∈ lc "123", pyIsAlpha c = false) ∧
      ((evaluate_normalize (lc "123") rawMixed).Arabic_Accuracy.Heuristic_Arabic_Purity_Pct = some 0 ∧
        (evaluate_normalize (lc "123") rawMixed).Arabic_Accuracy.Arabic_Purity = 1 ∧
        (evaluate_normalize (lc "123") rawMixed).Arabic_Accuracy.Grammar ≤ 3 ∧
        (evaluate_normalize (lc "123") rawMixed).Arabic_Accuracy.Overall ≤ 3 ∧
        ((clamp_scale_scores rawMixed).Arabic_Accuracy.Arabic_Purity > 1 →
          ∃ r, (evaluate_normalize (lc "123") rawMixed).Arabic_Accuracy.Penalty_Reason = some r ∧
            strContainsSub "Capped purity (heuristic 0.0%)" r = true)) :=
  ⟨by decide, by decide,
   c10_amended_non_alpha rawMixed (lc "123") (by decide) (by decide)⟩

/-! Section: The strict-100 question guard (claim C8) -/

/-- Embedding of `load_eval_questions` from `parrot_ai/llm_evaluation.py`, over file
contents given as a list of lines: keep the stripped non-blank lines, up
to `limit` (a missing file reads as no lines). -/
def load_eval_questions (file : List (List Char)) (limit : Nat) : List (List Char) :=
  ((file.filter fun ln => pyStrip ln ≠ []).map pyStrip).take limit

/-- The strict-100 guard in `main` of `cp_eval.py`: the run aborts (via
`SystemExit`, before any scoring) when
`len(load_eval_questions(questions_file, limit=100)) != 100`. -/
def questionGuardAborts (file : List (List Char)) : Bool :=
  (load_eval_questions file 100).length ≠ 100

/-- Counterexample to C8 as stated: a question file with 101 non-blank
lines does not abort — `load_eval_questions` truncates to the first 100
and the guard passes. -/
theorem c8_counterexample_101_questions :
    ((List.replicate 101 (lc "q")).filter fun ln => pyStrip ln ≠ []).length ≠ 100 ∧
      questionGuardAborts (List.replicate 101 (lc "q")) = false := by
  decide

/-- C8 (amended): the guard aborts exactly when the file has fewer than
100 non-blank lines; a file with more than 100 is silently truncated to
the first 100. -/
theorem c8_amended_guard_iff (file : List (List Char)) :
    questionGuardAborts file = true ↔
      (file.filter fun ln => pyStrip ln ≠ []).length < 100 := by
  simp only [questionGuardAborts, load_eval_questions, List.length_take,
    List.length_map, ne_eq, decide_eq_true_eq]
  omega

/-! Section: Score aggregation (`aggregate_scores` in `cp_eval.py`, claim C5) -/

/-- A `(section, sub-criterion)` aggregation key. -/
abbrev AggKey := String × String

/-- Functional update, modelling a Python dict assignment. -/
def upd {V : Type} (m : AggKey → V) (k : AggKey) (v : V) : AggKey → V :=
  fun k' => if k' = k then v else m k'

/-- The flattened `(section, key, value)` items of one evaluation dict, in
iteration order.  `Penalty_Reason` holds an optional string and
`Heuristic_Arabic_Purity_Pct` a float; neither is an `int`, so both carry
`none` here (the source also skips exactly these two by name). -/
def scoreItems (s : Score) : List (String × String × Option ℤ) :=
  [("Adherence", "Core", some s.Adherence.Core),
   ("Adherence", "Secondary", some s.Adherence.Secondary),
   ("Adherence", "Tertiary_Handling", some s.Adherence.Tertiary_Handling),
   ("Adherence", "Biblical_Basis", some s.Adherence.Biblical_Basis),
   ("Adherence", "Consistency", some s.Adherence.Consistency),
   ("Adherence", "Overall", some s.Adherence.Overall),
   ("Kindness_and_Gentleness", "Core_Clarity_with_Kindness",
     some s.Kindness_and_Gentleness.Core_Clarity_with_Kindness),
   ("Kindness_and_Gentleness", "Pastoral_Sensitivity",
     some s.Kindness_and_Gentleness.Pastoral_Sensitivity),
   ("Kindness_and_Gentleness", "Secondary_Fairness",
     some s.Kindness_and_Gentleness.Secondary_Fairness),
   ("Kindness_and_Gentleness", "Tertiary_Neutrality",
     some s.Kindness_and_Gentleness.Tertiary_Neutrality),
   ("Kindness_and_Gentleness", "Tone", some s.Kindness_and_Gentleness.Tone),
   ("Kindness_and_Gentleness", "Overall", some s.Kindness_and_Gentleness.Overall),
   ("Interfaith_Sensitivity", "Respect_and_Handling_Objections",
     some s.Interfaith_Sensitivity.Respect_and_Handling_Objections),
   ("Interfaith_Sensitivity", "Objection_Acknowledgement",
     some s.Interfaith_Sensitivity.Objection_Acknowledgement),
   ("Interfaith_Sensitivity", "Evangelism", some s.Interfaith_Sensitivity.Evangelism),
   ("Interfaith_Sensitivity", "Gospel_Boldness",
     some s.Interfaith_Sensitivity.Gospel_Boldness),
   ("Interfaith_Sensitivity", "Overall", some s.Interfaith_Sensitivity.Overall),
   ("Arabic_Accuracy", "Grammar_and_Syntax", some s.Arabic_Accuracy.Grammar),
   ("Arabic_Accuracy", "Theological_Nuance", some s.Arabic_Accuracy.Theological_Nuance),
   ("Arabic_Accuracy", "Contextual_Clarity", some s.Arabic_Accuracy.Contextual_Clarity),
   ("Arabic_Accuracy", "Consistency_of_Terms", some s.Arabic_Accuracy.Consistency_of_Terms),
   ("Arabic_Accuracy", "Arabic_Purity", some s.Arabic_Accuracy.Arabic_Purity),
   ("Arabic_Accuracy", "Penalty_Reason", none),
   ("Arabic_Accuracy", "Overall", some s.Arabic_Accuracy.Overall),
   ("Arabic_Accuracy", "Heuristic_Arabic_Purity_Pct", none)]

/-- One `(key, val)` step of the accumulation loop of `aggregate_scores`:
skip the two special fields, skip non-ints, otherwise add to the running
sum and count. -/
def aggStep (st : (AggKey → ℤ) × (AggKey → ℕ)) (e : String × String × Option ℤ) :
    (AggKey → ℤ) × (AggKey → ℕ) :=
  if e.2.1 = "Penalty_Reason" ∨ e.2.1 = "Heuristic_Arabic_Purity_Pct" then st
  else
    match e.2.2 with
    | some n =>
      (upd st.1 (e.1, e.2.1) (st.1 (e.1, e.2.1) + n),
       upd st.2 (e.1, e.2.1) (st.2 (e.1, e.2.1) + 1))
    | none => st

/-- Embedding of `aggregate_scores` from `cp_eval.py`.  The `agg`/`counts` dicts are
modelled as total functions with default 0; a key is present in the output
iff its count is positive (a key enters `agg` and `counts` together).
`Failed` batch items carry no `"evaluation"` and are skipped by
`if not ev: continue`. -/
def aggregate_scores (results : List (Option Score)) : AggKey → Option ℚ :=
  let st : (AggKey → ℤ) × (AggKey → ℕ) := results.foldl
    (fun st r =>
      match r with
      | some s => (scoreItems s).foldl aggStep st
      | none => st)
    (fun _ => 0, fun _ => 0)
  fun k =>
    if 0 < st.2 k then some (pyRound2 ((st.1 k : ℚ) / (st.2 k : ℚ))) else none

/-- The integer contributions of an items list at one key (claim-side
reading: non-special, integer-valued entries at that key). -/
def itemsContribs (items : List (String × String × Option ℤ)) (k : AggKey) : List ℤ :=
  items.filterMap fun e =>
    if e.2.1 = "Penalty_Reason" ∨ e.2.1 = "Heuristic_Arabic_Purity_Pct" then none
    else if (e.1, e.2.1) = k then e.2.2 else none

/-- All contributions of a batch at one key: `Scored` items only. -/
def batchContribs (results : List (Option Score)) (k : AggKey) : List ℤ :=
  results.foldr
    (fun r acc =>
      match r with
      | some s => itemsContribs (scoreItems s) k ++ acc
      | none => acc) []

/-- The inner accumulation loop adds exactly the contributions of the
items list, pointwise at every key. -/
theorem foldl_aggStep_spec (items : List (String × String × Option ℤ)) (k : AggKey) :
    ∀ st : (AggKey → ℤ) × (AggKey → ℕ),
    (items.foldl aggStep st).1 k = st.1 k + (itemsContribs items k).sum ∧
      (items.foldl aggStep st).2 k = st.2 k + (itemsContribs items k).length := by
  induction items with
  | nil => intro st; simp [itemsContribs]
  | cons e rest ih =>
    intro st
    obtain ⟨sec, key, v⟩ := e
    rw [List.foldl_cons]
    by_cases hsp : key = "Penalty_Reason" ∨ key = "Heuristic_Arabic_Purity_Pct"
    · have hstep : aggStep st (sec, key, v) = st := by
        unfold aggStep
        rw [if_pos hsp]
      have hcon : itemsContribs ((sec, key, v) :: rest) k = itemsContribs rest k := by
        unfold itemsContribs
        rw [List.filterMap_cons]
        dsimp only
        rw [if_pos hsp]
      rw [hstep, hcon]
      exact ih st
    · cases v with
      | none =>
        have hstep : aggStep st (sec, key, none) = st := by
          unfold aggStep
          rw [if_neg hsp]
        have hcon : itemsContribs ((sec, key, none) :: rest) k = itemsContribs rest k := by
          unfold itemsContribs
          rw [List.filterMap_cons]
          dsimp only
          rw [if_neg hsp]
          split_ifs <;> rfl
        rw [hstep, hcon]
        exact ih st
      | some n =>
        have hstep : aggStep st (sec, key, some n) =
            (upd st.1 (sec, key) (st.1 (sec, key) + n),
             upd st.2 (sec, key) (st.2 (sec, key) + 1)) := by
          unfold aggStep
          rw [if_neg hsp]
        rw [hstep]
        obtain ⟨ih1, ih2⟩ := ih
          (upd st.1 (sec, key) (st.1 (sec, key) + n),
           upd st.2 (sec, key) (st.2 (sec, key) + 1))
        by_cases hk : ((sec, key) : AggKey) = k
        · have hcon : itemsContribs ((sec, key, some n) :: rest) k
              = n :: itemsContribs rest k := by
            unfold itemsContribs
            rw [List.filterMap_cons]
            dsimp only
            rw [if_neg hsp, if_pos hk]
          rw [hcon]
          constructor
          · rw [ih1]
            dsimp only
            unfold upd
            rw [if_pos hk.symm, List.sum_cons, ← hk]
            ring
          · rw [ih2]
            dsimp only
            unfold upd
            rw [if_pos hk.symm, List.length_cons, ← hk]
            omega
        · have hcon : itemsContribs ((sec, key, some n) :: rest) k
              = itemsContribs rest k := by
            unfold itemsContribs
            rw [List.filterMap_cons]
            dsimp only
            rw [if_neg hsp, if_neg hk]
          rw [hcon]
          have hk' : k ≠ ((sec, key) : AggKey) := fun h => hk h.symm
          constructor
          · rw [ih1]
            dsimp only
            unfold upd
            rw [if_neg hk']
          · rw [ih2]
            dsimp only
            unfold upd
            rw [if_neg hk']

/-- The whole accumulation adds exactly the batch's contributions,
pointwise at every key. -/
theorem foldl_batch_spec (results : List (Option Score)) (k : AggKey) :
    ∀ st : (AggKey → ℤ) × (AggKey → ℕ),
    ((results.foldl
        (fun st r =>
          match r with
          | some s => (scoreItems s).foldl aggStep st
          | none => st) st).1 k
      = st.1 k + (batchContribs results k).sum) ∧
    ((results.foldl
        (fun st r =>
          match r with
          | some s => (scoreItems s).foldl aggStep st
          | none => st) st).2 k
      = st.2 k + (batchContribs results k).length) := by
  induction results with
  | nil => intro st; simp [batchContribs]
  | cons r rest ih =>
    intro st
    rw [List.foldl_cons]
    cases r with
    | none =>
      have hcon : batchContribs (none :: rest) k = batchContribs rest k := rfl
      rw [hcon]
      exact ih st
    | some s =>
      have hcon : batchContribs (some s :: rest) k
          = itemsContribs (scoreItems s) k ++ batchContribs rest k := rfl
      rw [hcon]
      obtain ⟨ih1, ih2⟩ := ih ((scoreItems s).foldl aggStep st)
      obtain ⟨h1, h2⟩ := foldl_aggStep_spec (scoreItems s) k st
      constructor
      · show (List.foldl _ ((scoreItems s).foldl aggStep st) rest).1 k = _
        rw [ih1, h1, List.sum_append]
        ring
      · show (List.foldl _ ((scoreItems s).foldl aggStep st) rest).2 k = _
        rw [ih2, h2, List.length_append]
        omega

/-- The 23 `(section, sub-criterion)` pairs carrying integer scores. -/
def scoreKeys : List AggKey :=
  [("Adherence", "Core"), ("Adherence", "Secondary"),
   ("Adherence", "Tertiary_Handling"), ("Adherence", "Biblical_Basis"),
   ("Adherence", "Consistency"), ("Adherence", "Overall"),
   ("Kindness_and_Gentleness", "Core_Clarity_with_Kindness"),
   ("Kindness_and_Gentleness", "Pastoral_Sensitivity"),
   ("Kindness_and_Gentleness", "Secondary_Fairness"),
   ("Kindness_and_Gentleness", "Tertiary_Neutrality"),
   ("Kindness_and_Gentleness", "Tone"), ("Kindness_and_Gentleness", "Overall"),
   ("Interfaith_Sensitivity", "Respect_and_Handling_Objections"),
   ("Interfaith_Sensitivity", "Objection_Acknowledgement"),
   ("Interfaith_Sensitivity", "Evangelism"),
   ("Interfaith_Sensitivity", "Gospel_Boldness"),
   ("Interfaith_Sensitivity", "Overall"),
   ("Arabic_Accuracy", "Grammar_and_Syntax"),
   ("Arabic_Accuracy", "Theological_Nuance"),
   ("Arabic_Accuracy", "Contextual_Clarity"),
   ("Arabic_Accuracy", "Consistency_of_Terms"),
   ("Arabic_Accuracy", "Arabic_Purity"), ("Arabic_Accuracy", "Overall")]

/-- A normalized score whose every integer field is 4. -/
def allFourScore : Score :=
  ⟨⟨4, 4, 4, 4, 4, 4⟩, ⟨4, 4, 4, 4, 4, 4⟩, ⟨4, 4, 4, 4, 4⟩,
   ⟨4, 4, 4, 4, 4, none, 4, some 50⟩⟩

/-- One `Failed` item followed by nine `Scored` all-4 items. -/
def tenBatch : List (Option Score) :=
  none :: List.replicate 9 (some allFourScore)

set_option maxRecDepth 100000 in
unseal Rat.mul Rat.sub Rat.add Rat.inv in
/-- C5 (claim): `aggregate_scores` maps each `(section, sub-criterion)`
pair with at least one contributing integer value to `round(sum/count, 2)`
over the `Scored` items, omits pairs with no contributing items, and on a
batch of one `Failed` plus nine all-4 `Scored` items yields exactly 4.0 at
every scored pair. -/
theorem c5_aggregate_means :
    (∀ (results : List (Option Score)) (k : AggKey),
      aggregate_scores results k =
        if batchContribs results k = [] then none
        else some (pyRound2 (((batchContribs results k).sum : ℚ)
          / ((batchContribs results k).length : ℚ)))) ∧
      (scoreKeys.all fun k => decide (aggregate_scores tenBatch k = some 4)) = true := by
  constructor
  · intro results k
    unfold aggregate_scores
    obtain ⟨h1, h2⟩ := foldl_batch_spec results k (fun _ => 0, fun _ => 0)
    rw [h1, h2]
    simp only [zero_add, Nat.zero_add]
    rcases eq_or_ne (batchContribs results k) [] with he | he
    · rw [he]
      simp
    · rw [if_pos (List.length_pos.mpr he), if_neg he]
  · decide

/-! Section: The comparison table (`cp_eval.py`, claim C4) -/

/-- Embedding of `CSV_ROWS_ORDER` from `cp_eval.py`: the 11 canonical
`(criterion, sub-criterion)` rows. -/
def CSV_ROWS_ORDER : List (String × Option String) :=
  [("Adherence", none), ("Kindness_and_Gentleness", none),
   ("Interfaith_Sensitivity", some "Respect_and_Handling_Objections"),
   ("Interfaith_Sensitivity", some "Objection_Acknowledgement"),
   ("Interfaith_Sensitivity", some "Evangelism"),
   ("Interfaith_Sensitivity", some "Gospel_Boldness"),
   ("Arabic_Accuracy", some "Grammar_and_Syntax"),
   ("Arabic_Accuracy", some "Theological_Nuance"),
   ("Arabic_Accuracy", some "Contextual_Clarity"),
   ("Arabic_Accuracy", some "Consistency_of_Terms"),
   ("Arabic_Accuracy", some "Arabic_Purity")]

/-- A persisted comparison CSV as parsed records; `none` models a missing
file.  When a file exists, its first record (if any) is the header row. -/
abbrev CsvState := Option (List (List String))

/-- Embedding of `ensure_csv_structure`: the data rows — the canonical 11 two-cell rows
when no file exists, else every record after the header. -/
def ensure_csv_structure (st : CsvState) : List (List String) :=
  match st with
  | none => CSV_ROWS_ORDER.map fun rs => [rs.1, rs.2.getD "N/A"]
  | some recs => recs.tail

/-- Cell access `row[i]`.  Rows written by this code always have enough
cells; on a shorter row Python would raise `IndexError`. -/
def cell (row : List String) (i : ℕ) : String := row.getD i ""

/-- Row key for a cell lookup: `(criterion, "Overall")` when the
sub-criterion cell is the `"N/A"` sentinel. -/
def rowKey (row : List String) : AggKey :=
  (cell row 0, if cell row 1 = "N/A" then "Overall" else cell row 1)

/-- Cell text for a row from the aggregated scores
(`aggregated.get(key, "")`; the value's `str()` rendering is kept abstract
as a string). -/
def aggCell (aggregated : AggKey → Option String) (row : List String) : String :=
  match aggregated (rowKey row) with
  | none => ""
  | some v => v

/-- The `while` suffix-probing loop of `update_comparison_csv`, with fuel:
`models.length + 1` probes suffice because the candidate names
`label_2, label_3, …` are pairwise distinct. -/
def suffixFrom (label : String) (models : List String) : ℕ → ℕ → ℕ
  | 0, n => n
  | fuel + 1, n =>
    if (label ++ "_" ++ toString n) ∈ models then suffixFrom label models fuel (n + 1)
    else n

/-- Embedding of `update_comparison_csv` from `cp_eval.py`, as a function from the
persisted state to the records written back (header record first). -/
def update_comparison_csv (st : CsvState) (answers_label : String)
    (aggregated : AggKey → Option String) (overwrite : Bool) : List (List String) :=
  let rows := ensure_csv_structure st
  let existing_header : List String :=
    match st with
    | none => []
    | some recs =>
      match recs.head? with
      | none => []
      | some h => if h = [] then [] else h
  let existing_header_models := existing_header.drop 2
  let final_model_name :=
    if answers_label ∈ existing_header_models ∧ overwrite = false then
      answers_label ++ "_" ++ toString (suffixFrom answers_label existing_header_models
        (existing_header_models.length + 1) 2)
    else answers_label
  if existing_header_models ≠ [] ∧ overwrite = true ∧
      answers_label ∈ existing_header_models then
    let col_index := existing_header_models.indexOf answers_label + 2
    existing_header :: rows.map fun row => row.set col_index (aggCell aggregated row)
  else
    let rows' := rows.map fun row => row ++ [aggCell aggregated row]
    let header := ["Criterion", "Sub-criterion"] ++ existing_header_models
    let header' :=
      if ¬ (overwrite = true ∧ answers_label ∈ existing_header_models) then
        header ++ [final_model_name]
      else header
    header' :: rows'

/-- The canonical rows of a fresh table. -/
def canonRows : List (List String) :=
  CSV_ROWS_ORDER.map fun rs => [rs.1, rs.2.getD "N/A"]

/-- Appending one subject's column to every data row. -/
def withColumn (aggregated : AggKey → Option String)
    (rows : List (List String)) : List (List String) :=
  rows.map fun row => row ++ [aggCell aggregated row]

/-- Counterexample to C4 as stated: upserting into an *empty existing*
file does not create the 11 canonical rows — `ensure_csv_structure` only
initializes them when no file exists, so an empty file yields a header
record and zero data rows. -/
theorem c4_counterexample_empty_file :
    update_comparison_csv (some []) "m1" (fun _ => none) false
      = [["Criterion", "Sub-criterion", "m1"]] ∧
      ([["Criterion", "Sub-criterion", "m1"]] : List (List String)).tail.length ≠ 11 := by
  constructor
  · rfl
  · decide

/-- C4 (amended, with "empty" restricted to "nonexistent"): upserting a
new label into a nonexistent table creates the 11 canonical rows with one
data column; upserting an existing label with `overwrite=false` appends a
fresh column named `label_2` (the smallest unused suffix) leaving all
existing cells unchanged; upserting with `overwrite=true` rewrites only
that label's column in place, leaving the header and other columns
identical. -/
theorem c4_amended_upsert_behavior (A B : String)
    (agg1 agg2 agg3 agg4 : AggKey → Option String)
    (hBA : B ≠ A) (hB2 : B ≠ A ++ "_2") :
    canonRows.length = 11 ∧
    update_comparison_csv none A agg1 false
      = ["Criterion", "Sub-criterion", A] :: withColumn agg1 canonRows ∧
    update_comparison_csv (some (["Criterion", "Sub-criterion", A] ::
        withColumn agg1 canonRows)) B agg2 false
      = ["Criterion", "Sub-criterion", A, B] ::
          withColumn agg2 (withColumn agg1 canonRows) ∧
    update_comparison_csv (some (["Criterion", "Sub-criterion", A, B] ::
        withColumn agg2 (withColumn agg1 canonRows))) A agg3 false
      = ["Criterion", "Sub-criterion", A, B, A ++ "_2"] ::
          withColumn agg3 (withColumn agg2 (withColumn agg1 canonRows)) ∧
    update_comparison_csv (some (["Criterion", "Sub-criterion", A, B] ::
        withColumn agg2 (withColumn agg1 canonRows))) A agg4 true
      = ["Criterion", "Sub-criterion", A, B] ::
          (withColumn agg2 (withColumn agg1 canonRows)).map
            (fun row => row.set 2 (aggCell agg4 row)) := by
  refine ⟨by decide, rfl, ?_, ?_, ?_⟩
  · unfold update_comparison_csv
    simp [ensure_csv_structure, withColumn, hBA]
  · have hd2 : "_" ++ toString (2 : ℕ) = "_2" := by decide
    have hts : A ++ "_" ++ toString (2 : ℕ) = A ++ "_2" := by
      rw [String.append_assoc, hd2]
    have hA2 : A ++ "_2" ≠ A := by
      intro h
      have hlen := congrArg String.length h
      rw [String.length_append] at hlen
      have h22 : ("_2").length = 2 := by decide
      omega
    have h2B : A ++ "_2" ≠ B := fun h => hB2 h.symm
    unfold update_comparison_csv
    simp [ensure_csv_structure, withColumn, suffixFrom, hts, hA2, h2B, hBA]
  · unfold update_comparison_csv
    simp [ensure_csv_structure, List.indexOf_cons_self]

/-- Witness for the amended C4 at concrete labels and aggregates. -/
theorem c4_amended_upsert_behavior_witness :
    ("model_b" ≠ "model_a") ∧ ("model_b" ≠ "model_a" ++ "_2") ∧
      (canonRows.length = 11 ∧
       update_comparison_csv none "model_a" (fun _ => some "4.0") false
         = ["Criterion", "Sub-criterion", "model_a"] ::
             withColumn (fun _ => some "4.0") canonRows ∧
       update_comparison_csv (some (["Criterion", "Sub-criterion", "model_a"] ::
           withColumn (fun _ => some "4.0") canonRows)) "model_b" (fun _ => none) false
         = ["Criterion", "Sub-criterion", "model_a", "model_b"] ::
             withColumn (fun _ => none) (withColumn (fun _ => some "4.0") canonRows) ∧
       update_comparison_csv (some (["Criterion", "Sub-criterion", "model_a", "model_b"] ::
           withColumn (fun _ => none) (withColumn (fun _ => some "4.0") canonRows)))
           "model_a" (fun _ => some "3.5") false
         = ["Criterion", "Sub-criterion", "model_a", "model_b", "model_a" ++ "_2"] ::
             withColumn (fun _ => some "3.5")
               (withColumn (fun _ => none) (withColumn (fun _ => some "4.0") canonRows)) ∧
       update_comparison_csv (some (["Criterion", "Sub-criterion", "model_a", "model_b"] ::
           withColumn (fun _ => none) (withColumn (fun _ => some "4.0") canonRows)))
           "model_a" (fun _ => some "2.5") true
         = ["Criterion", "Sub-criterion", "model_a", "model_b"] ::
             (withColumn (fun _ => none) (withColumn (fun _ => some "4.0") canonRows)).map
               (fun row => row.set 2 (aggCell (fun _ => some "2.5") row))) :=
  ⟨by decide, by decide,
   c4_amended_upsert_behavior "model_a" "model_b"
     (fun _ => some "4.0") (fun _ => none) (fun _ => some "3.5") (fun _ => some "2.5")
     (by decide) (by decide)⟩
